import Mathlib

/-!
# ClearLine redistricting engine — verification development

Shallow embedding of the redistricting computation engine of the
ClearLine repository: the district cost/aggregation model, the two
partitioning algorithms (`seedAndGrow`, `simulatedAnnealing`), the
worker-side task dispatch (`main.worker.ts`), and the worker-pool
scheduler (`WorkerManager`).

Conventions of the embedding:
* JavaScript numbers are modelled as exact rationals (`ℚ`); the claims
  under check are structural, not about floating-point rounding.
* `Math.random()` draws are modelled by explicit oracle streams
  (`ℕ → ℕ` index streams, `ℕ → Bool` for the Metropolis coin); any
  concrete run of the program corresponds to some choice of stream.
* JavaScript `Map` objects are modelled as insertion-ordered
  association lists; plain object tables as `ℕ → Option _` functions.
* `Float64Array` out-of-bounds writes are silently ignored in
  JavaScript; the aggregation model reproduces that by dropping writes
  whose district slot lies outside the allocated buffer.

The source file `src/core/algorithms.ts` contains two concatenated
revisions of the module; the cost model below follows the first
(flat-buffer) revision, whose line ranges the specification cites, and
`aggregateMap` follows the second (Map-based) revision's aggregation
step.  `src/core/WorkerManager.ts` likewise holds two revisions; the
scheduler model follows the second (the one with `resizePool` /
`updateLoad`).
-/

namespace ClearLine

/-- Per-precinct statistics vector `[population, demVotes, repVotes,
white, black, hispanic, educationPct, medianIncome]`. -/
structure Stats where
  pop : ℚ
  dem : ℚ
  rep : ℚ
  white : ℚ
  black : ℚ
  hispanic : ℚ
  edu : ℚ
  inc : ℚ
  deriving DecidableEq, Repr

/-- The zero statistics vector (the `[0,0,0,0,0,0,0,0]` default). -/
def zeroStats : Stats := ⟨0, 0, 0, 0, 0, 0, 0, 0⟩

/-- Per-precinct growth-slope vector `[pop, dem, rep, white, black,
hispanic]`, one slope per metric from historical linear regression. -/
structure SlopeVec where
  pop : ℚ
  dem : ℚ
  rep : ℚ
  white : ℚ
  black : ℚ
  hispanic : ℚ
  deriving DecidableEq, Repr

/-- The zero slope vector (the `[0,0,0,0,0,0]` default). -/
def zeroSlopes : SlopeVec := ⟨0, 0, 0, 0, 0, 0⟩

/-- A precinct record as passed to the partition algorithms:
id, current district, centroid coordinates, stats and slopes. -/
structure Precinct where
  id : ℕ
  districtId : ℕ
  x : ℚ
  y : ℚ
  stats : Stats
  slopes : SlopeVec
  deriving DecidableEq, Repr

instance : Inhabited Precinct := ⟨⟨0, 0, 0, 0, zeroStats, zeroSlopes⟩⟩

/-- Per-district accumulator bucket: summed counts, population-weighted
education/income products, and summed growth slopes (one stats stride
plus one slopes stride of the flat buffers). -/
structure DistrictAgg where
  pop : ℚ
  dem : ℚ
  rep : ℚ
  white : ℚ
  black : ℚ
  hispanic : ℚ
  eduProd : ℚ
  incProd : ℚ
  slopes : SlopeVec
  deriving DecidableEq, Repr

/-- The all-zero accumulator (freshly cleared buffer stride). -/
def zeroAgg : DistrictAgg := ⟨0, 0, 0, 0, 0, 0, 0, 0, zeroSlopes⟩

/-- Add one precinct's stats and slopes into a district accumulator:
the unrolled `districtStatsBuffer[offset+k] += …` /
`districtSlopesBuffer[offset+k] += …` block of `calculateCost`. -/
def addPrecinct (agg : DistrictAgg) (p : Precinct) : DistrictAgg where
  pop := agg.pop + p.stats.pop
  dem := agg.dem + p.stats.dem
  rep := agg.rep + p.stats.rep
  white := agg.white + p.stats.white
  black := agg.black + p.stats.black
  hispanic := agg.hispanic + p.stats.hispanic
  eduProd := agg.eduProd + p.stats.edu * p.stats.pop
  incProd := agg.incProd + p.stats.inc * p.stats.pop
  slopes :=
    ⟨agg.slopes.pop + p.slopes.pop, agg.slopes.dem + p.slopes.dem,
     agg.slopes.rep + p.slopes.rep, agg.slopes.white + p.slopes.white,
     agg.slopes.black + p.slopes.black, agg.slopes.hispanic + p.slopes.hispanic⟩

/-- An assignment of precinct ids to district ids (the `Map` queried by
`assignment.get(p.id)` in the cost model, viewed as a total function). -/
def Assignment : Type := ℕ → ℕ

/-- The flat-buffer aggregation step of `calculateCost` (first revision):
iterate every precinct once, adding its stats into the bucket of its
assigned district.  The buffer holds slots `0 … districtCount` (`+1 for
1-based indexing safety`); a write whose slot exceeds `districtCount`
falls outside the `Float64Array` and is silently ignored, which the
`if d ≤ dc` guard reproduces. -/
def aggregate (dc : ℕ) (ps : List Precinct) (a : Assignment) : ℕ → DistrictAgg :=
  ps.foldl
    (fun buf p =>
      let d := a p.id
      if d ≤ dc then Function.update buf d (addPrecinct (buf d) p) else buf)
    (fun _ => zeroAgg)

/-- Total registry population: the `totalPop += stats[0]` accumulator,
which runs over every precinct unconditionally. -/
def totalPop (ps : List Precinct) : ℚ :=
  (ps.map (fun p => p.stats.pop)).sum

/-- The eight constraint metrics. -/
inductive Metric where
  | population | demVotes | repVotes | white | black | hispanic | education | income
  deriving DecidableEq, Repr

/-- Constraint metric type: direct value, or growth rate. -/
inductive MetricType where
  | value | growth
  deriving DecidableEq, Repr

/-- Constraint comparison operators. -/
inductive COperator where
  | gt | lt | ge | le | approx | between
  deriving DecidableEq, Repr

/-- A user constraint (`Constraint` in `types.ts`); `metricType` is
optional and defaults to `value`, `maxValue` is only meaningful for
`between`. -/
structure Constraint where
  metric : Metric
  metricType : Option MetricType
  op : COperator
  value : ℚ
  maxValue : Option ℚ
  targetPercent : ℚ
  deriving DecidableEq, Repr

/-- Slope/current-value pair selected by the `metricType === 'growth'`
switch; the `default` arm (education/income) yields `(0, 1)`. -/
def growthParams (m : Metric) (agg : DistrictAgg) : ℚ × ℚ :=
  match m with
  | .population => (agg.slopes.pop, agg.pop)
  | .demVotes => (agg.slopes.dem, agg.dem)
  | .repVotes => (agg.slopes.rep, agg.rep)
  | .white => (agg.slopes.white, agg.white)
  | .black => (agg.slopes.black, agg.black)
  | .hispanic => (agg.slopes.hispanic, agg.hispanic)
  | .education => (0, 1)
  | .income => (0, 1)

/-- Growth-rate evaluation: `val = (slope / currentVal) * 100` guarded
only by `currentVal !== 0` (no floor for near-zero values). -/
def growthVal (slope currentVal : ℚ) : ℚ :=
  if currentVal ≠ 0 then slope / currentVal * 100 else 0

/-- Direct metric value of a district aggregate (`metricType` value
switch); education/income are population-weighted averages. -/
def valueVal (m : Metric) (agg : DistrictAgg) : ℚ :=
  match m with
  | .population => agg.pop
  | .demVotes => agg.dem
  | .repVotes => agg.rep
  | .white => agg.white
  | .black => agg.black
  | .hispanic => agg.hispanic
  | .education => agg.eduProd / agg.pop
  | .income => agg.incProd / agg.pop

/-- The constraint's metric value for one district aggregate. -/
def evalMetric (c : Constraint) (agg : DistrictAgg) : ℚ :=
  if c.metricType = some .growth then
    growthVal (growthParams c.metric agg).1 (growthParams c.metric agg).2
  else valueVal c.metric agg

/-- Operator evaluation (`meets`): strict/inclusive comparisons, the
`~=` 5% tolerance band, and the inclusive `between` range whose upper
bound defaults to `value` when `maxValue` is absent. -/
def meets (c : Constraint) (val : ℚ) : Bool :=
  match c.op with
  | .gt => val > c.value
  | .lt => val < c.value
  | .ge => val ≥ c.value
  | .le => val ≤ c.value
  | .approx =>
      let tolerance := c.value * (5 / 100)
      val ≥ c.value - tolerance ∧ val ≤ c.value + tolerance
  | .between =>
      let max := c.maxValue.getD c.value
      val ≥ c.value ∧ val ≤ max

/-- District ids scanned by the cost loops: `for (d = 1; d <= districtCount; d++)`. -/
def districtRange (dc : ℕ) : List ℕ := List.range' 1 dc

/-- Per-constraint penalty of `calculateCost`: count districts with
nonzero population, count those meeting the constraint, and charge
`|percentMet - targetPercent| * 10` where
`percentMet = (districtsMeeting / max(1, totalDistricts)) * 100`. -/
def constraintPenalty (dc : ℕ) (buf : ℕ → DistrictAgg) (c : Constraint) : ℚ :=
  let counted := (districtRange dc).filter (fun d => (buf d).pop ≠ 0)
  let meeting := counted.filter (fun d => meets c (evalMetric c (buf d)))
  let percentMet : ℚ := ((meeting.length : ℚ) / (max 1 counted.length : ℕ)) * 100
  |percentMet - c.targetPercent| * 10

/-- The cost model `calculateCost` (flat-buffer revision): aggregate all
precincts, then population-deviation cost over districts with positive
population, plus the per-constraint penalties. -/
def calculateCost (dc : ℕ) (cs : List Constraint) (ps : List Precinct)
    (a : Assignment) : ℚ :=
  let buf := aggregate dc ps a
  let targetPop := totalPop ps / (dc : ℚ)
  let baseCost :=
    (((districtRange dc).filter (fun d => 0 < (buf d).pop)).map
      (fun d => |(buf d).pop - targetPop| / targetPop)).sum
  baseCost + (cs.map (constraintPenalty dc buf)).sum

/-- The active districts named by the specification: scanned districts
with nonzero aggregated population. -/
def specActive (dc : ℕ) (ps : List Precinct) (a : Assignment) : List ℕ :=
  (districtRange dc).filter (fun d => (aggregate dc ps a d).pop ≠ 0)

/-- The cost as worded by the specification (for comparison with
`calculateCost`): the sum over active districts of
`|districtPopulation - targetPopulation| / targetPopulation` with
`targetPopulation = totalPopulation / districtCount`, plus, per
constraint, `|percentMeeting - targetPercent| * 10` where
`percentMeeting` is the percentage of active districts whose metric
value satisfies the constraint's operator. -/
def specCost (dc : ℕ) (cs : List Constraint) (ps : List Precinct)
    (a : Assignment) : ℚ :=
  let buf := aggregate dc ps a
  let targetPop := totalPop ps / (dc : ℚ)
  ((specActive dc ps a).map (fun d => |(buf d).pop - targetPop| / targetPop)).sum
  + (cs.map (fun c =>
      let meeting := (specActive dc ps a).filter (fun d => meets c (evalMetric c (buf d)))
      |((meeting.length : ℚ) / ((specActive dc ps a).length : ℚ)) * 100
        - c.targetPercent| * 10)).sum

/-! ## Map-based aggregation (second revision of `calculateCost`)

The second revision accumulates district stats in a JavaScript `Map`
keyed by whatever district id the assignment produces; buckets are
created on demand in insertion order (`if (!districtStats.has(dId))
districtStats.set(dId, {…zero…})`). -/

/-- Update the value at key `k` of an insertion-ordered association
list, or append a fresh entry `(k, f init)` if `k` is absent. -/
def setOrInit {α : Type} (m : List (ℕ × α)) (k : ℕ) (f : α → α) (init : α) :
    List (ℕ × α) :=
  match m with
  | [] => [(k, f init)]
  | (k', v) :: t => if k' = k then (k', f v) :: t else (k', v) :: setOrInit t k f init

/-- The Map-based aggregation step: one bucket per assigned district id
(whatever that id is — there is no range check), each accumulating the
stats of the precincts assigned to it. -/
def aggregateMap (ps : List Precinct) (a : Assignment) : List (ℕ × DistrictAgg) :=
  ps.foldl (fun m p => setOrInit m (a p.id) (fun agg => addPrecinct agg p) zeroAgg) []

/-! ## Seeding (`seedAndGrow`)

Random draws `Math.floor(Math.random() * precincts.length)` are
modelled by an oracle stream `g : ℕ → ℕ` reduced modulo the precinct
count (every in-range index sequence arises from some stream). -/

/-- A chosen district center: seed precinct coordinates plus the
assigned center id `i + 1`. -/
structure Center where
  x : ℚ
  y : ℚ
  id : ℕ
  deriving DecidableEq, Repr

/-- Index drawn at stream position `t` over `len` precincts. -/
def drawIdx (g : ℕ → ℕ) (t len : ℕ) : ℕ := g t % len

/-- One seeding round's rejection-sampling loop (`while (attempts < 100)`):
draw a random precinct; accept it unless its id was already used.
Returns the accepted precinct together with the next stream position,
or `none` once the attempt budget is exhausted. -/
def tryPick (ps : List Precinct) (used : List ℕ) (g : ℕ → ℕ) :
    ℕ → ℕ → Option (Precinct × ℕ)
  | _, 0 => none
  | t, fuel + 1 =>
      let p := ps.getD (drawIdx g t ps.length) default
      if p.id ∈ used then tryPick ps used g (t + 1) fuel else some (p, t + 1)

/-- The seeding loop `for (i = 0; i < districtCount; i++)`: each round
runs `tryPick` with a budget of 100 attempts; a successful round pushes
a center with id `i + 1` (the loop index, not the number of centers so
far) and marks the seed used; a failed round pushes nothing and leaves
`used` unchanged, having consumed its 100 draws. -/
def pickLoop (ps : List Precinct) (g : ℕ → ℕ) :
    ℕ → ℕ → List ℕ → ℕ → List Center
  | 0, _, _, _ => []
  | r + 1, i, used, t =>
      match tryPick ps used g t 100 with
      | none => pickLoop ps g r (i + 1) used (t + 100)
      | some (p, t') => ⟨p.x, p.y, i + 1⟩ :: pickLoop ps g r (i + 1) (p.id :: used) t'

/-- Choose up to `districtCount` random seed precincts as centers. -/
def pickSeeds (ps : List Precinct) (dc : ℕ) (g : ℕ → ℕ) : List Center :=
  pickLoop ps g dc 0 [] 0

/-- Nearest-center scan: `minDist = Infinity; closestDistrict = 1`, then
keep the first center strictly improving the squared Euclidean distance
(`none` models the `Infinity` initial value, beaten by any distance). -/
def nearestCtr (centers : List Center) (p : Precinct) : ℕ :=
  (centers.foldl
    (fun (acc : Option ℚ × ℕ) c =>
      let distSq := (p.x - c.x) * (p.x - c.x) + (p.y - c.y) * (p.y - c.y)
      match acc.1 with
      | none => (some distSq, c.id)
      | some m => if distSq < m then (some distSq, c.id) else acc)
    (none, 1)).2

/-- Set key `k` to `v` in an insertion-ordered association list
(`Map.set`: existing keys keep their position, new keys are appended). -/
def assocSet (m : List (ℕ × ℕ)) (k v : ℕ) : List (ℕ × ℕ) :=
  match m with
  | [] => [(k, v)]
  | (k', v') :: t => if k' = k then (k', v) :: t else (k', v') :: assocSet t k v

/-- Lookup in an association list (`Map.get`). -/
def assocGet (m : List (ℕ × ℕ)) (k : ℕ) : Option ℕ :=
  (m.find? (fun kv => kv.1 = k)).map (fun kv => kv.2)

/-- `seedAndGrow`: pick random centers, then assign every precinct to
its nearest center's id, building the `newDistricts` map in precinct
order. -/
def seedAndGrow (ps : List Precinct) (dc : ℕ) (g : ℕ → ℕ) : List (ℕ × ℕ) :=
  let centers := pickSeeds ps dc g
  ps.foldl (fun m p => assocSet m p.id (nearestCtr centers p)) []

/-! ## Simulated annealing -/

/-- Oracle streams driving one simulated-annealing run: the precinct
pick and district draw per iteration, and the Metropolis coin (the
outcome of `Math.random() < exp(-Δcost / temperature)`; the claims
settled here do not depend on the coin's bias, so the coin itself is
the oracle). -/
structure SAStream where
  pick : ℕ → ℕ
  districtDraw : ℕ → ℕ
  metro : ℕ → Bool

/-- The precinct picked at random by one annealing iteration
(`precincts[Math.floor(Math.random() * precincts.length)]`). -/
def saPicked (ps : List Precinct) (pickV : ℕ) : Precinct :=
  ps.getD (pickV % ps.length) default

/-- The proposed district `Math.floor(Math.random() * districtCount) + 1`,
a uniform draw from `[1, districtCount]` (and `1` when `districtCount`
is zero). -/
def saProposed (dc ddV : ℕ) : ℕ := (if dc = 0 then 0 else ddV % dc) + 1

/-- One annealing iteration: pick a random precinct, propose a uniform
random district in `[1, districtCount]`; if it differs, apply the move,
recompute the full cost, accept improvements outright, otherwise accept
on the Metropolis coin, else revert the precinct's district.  State is
the `(assignment, currentCost)` pair; the temperature only biases the
coin and is carried by the oracle. -/
def saIteration (ps : List Precinct) (dc : ℕ) (cs : List Constraint)
    (a : Assignment) (cost : ℚ) (pickV ddV : ℕ) (metroV : Bool) :
    Assignment × ℚ :=
  let p := saPicked ps pickV
  let oldDistrict := a p.id
  let newDistrict := saProposed dc ddV
  if newDistrict = oldDistrict then (a, cost)
  else
    let a' := Function.update a p.id newDistrict
    let newCost := calculateCost dc cs ps a'
    if newCost < cost then (a', newCost)
    else if metroV then (a', newCost)
    else (Function.update a' p.id oldDistrict, cost)

/-- The initial assignment: every precinct at its current district
(`currentAssignment.set(p.id, p.districtId)`); ids outside the precinct
list are irrelevant to the cost model and default to `0`. -/
def initAssign (ps : List Precinct) : Assignment :=
  fun pid => (((ps.find? (fun p => p.id = pid)).map (fun p => p.districtId)).getD 0)

/-- The iteration count of one annealing run. -/
def saIterations : ℕ := 2000

/-- One full simulated-annealing run: initialize from the current
assignment and its cost, then `saIterations` accept/reject steps. -/
def saRun (ps : List Precinct) (dc : ℕ) (cs : List Constraint)
    (st : SAStream) : Assignment × ℚ :=
  (List.range saIterations).foldl
    (fun ac t => saIteration ps dc cs ac.1 ac.2 (st.pick t) (st.districtDraw t) (st.metro t))
    (initAssign ps, calculateCost dc cs ps (initAssign ps))

/-- The ensemble loop of the `SIMULATED_ANNEALING` handler:
`minCost = Infinity; bestAssignment = null`, then keep each run's pair
when its cost strictly beats the best so far (`none` models the initial
`Infinity`/`null` state). -/
def bestOfRuns {α : Type} (runs : ℕ) (run : ℕ → α × ℚ) : Option (α × ℚ) :=
  (List.range runs).foldl
    (fun best i =>
      match best with
      | none => some (run i)
      | some b => if (run i).2 < b.2 then some (run i) else b)
    none

/-! ## Worker registry and task handlers (`main.worker.ts`)

The external apportionment table `STATE_APPORTIONMENT` (module
`core/Apportionment`, not part of the engine source) is the lookup
`regionId → districtCount` of the specification, passed in as a
parameter `apportion : ℕ → Option ℕ`; `none` models a region id with
no entry. -/

/-- One year of historical statistics (`PrecinctStats`). -/
structure HistEntry where
  year : ℚ
  population : ℚ
  demVotes : ℚ
  repVotes : ℚ
  white : ℚ
  black : ℚ
  hispanic : ℚ
  education : ℚ
  income : ℚ
  deriving DecidableEq, Repr

/-- Result triple of `calculateLinearRegression`. -/
structure LinReg where
  slope : ℚ
  intercept : ℚ
  r2 : ℚ
  deriving DecidableEq, Repr

/-- `calculateLinearRegression` over `(x, y)` samples.  In `ℚ` a zero
denominator yields `0` where JavaScript would produce `NaN`/`Infinity`
(degenerate data: no samples or constant `x`); the historical data the
engine feeds it always has eight distinct years. -/
def calculateLinearRegression (data : List (ℚ × ℚ)) : LinReg :=
  let n : ℚ := data.length
  if data.length = 0 then ⟨0, 0, 0⟩
  else
    let sumX := (data.map (fun s => s.1)).sum
    let sumY := (data.map (fun s => s.2)).sum
    let sumXY := (data.map (fun s => s.1 * s.2)).sum
    let sumXX := (data.map (fun s => s.1 * s.1)).sum
    let sumYY := (data.map (fun s => s.2 * s.2)).sum
    let slope := (n * sumXY - sumX * sumY) / (n * sumXX - sumX * sumX)
    let intercept := (sumY - slope * sumX) / n
    let ssTot := sumYY - sumY * sumY / n
    let ssRes2 :=
      (data.map (fun s => (s.2 - (slope * s.1 + intercept)) * (s.2 - (slope * s.1 + intercept)))).sum
    ⟨slope, intercept, 1 - ssRes2 / ssTot⟩

/-- Growth slopes computed on `LOAD_DATA`: one linear-regression slope
per metric over the precinct's history, in the order
`[population, demVotes, repVotes, white, black, hispanic]`. -/
def slopesOf (hist : List HistEntry) : SlopeVec :=
  let slopeFor (f : HistEntry → ℚ) : ℚ :=
    (calculateLinearRegression (hist.map (fun h => (h.year, f h)))).slope
  ⟨slopeFor (fun h => h.population), slopeFor (fun h => h.demVotes),
   slopeFor (fun h => h.repVotes), slopeFor (fun h => h.white),
   slopeFor (fun h => h.black), slopeFor (fun h => h.hispanic)⟩

/-- One record of a `LOAD_DATA` payload. -/
structure LoadRec where
  id : ℕ
  districtId : ℕ
  stateId : ℕ
  coords : Option (List (ℚ × ℚ))
  stats : Stats
  history : Option (List HistEntry)

/-- The worker-local precinct registry: the six worker-state maps.
`districtMap` keeps `Map` insertion order (the handlers iterate it);
the others are only read pointwise. -/
structure Reg where
  districtMap : List (ℕ × ℕ)
  statsMap : ℕ → Option Stats
  slopesMap : ℕ → Option SlopeVec
  stateMap : ℕ → Option ℕ
  coordsMap : ℕ → Option (List (ℚ × ℚ))
  historyMap : ℕ → Option (List HistEntry)

/-- `LOAD_DATA`: store each record's district, stats and state; coords
and history only when present; history additionally derives the slope
vector. -/
def loadData (reg : Reg) (recs : List LoadRec) : Reg :=
  recs.foldl
    (fun reg p =>
      { reg with
        districtMap := assocSet reg.districtMap p.id p.districtId
        statsMap := Function.update reg.statsMap p.id (some p.stats)
        stateMap := Function.update reg.stateMap p.id (some p.stateId)
        coordsMap :=
          match p.coords with
          | none => reg.coordsMap
          | some cs => Function.update reg.coordsMap p.id (some cs)
        historyMap :=
          match p.history with
          | none => reg.historyMap
          | some h => Function.update reg.historyMap p.id (some h)
        slopesMap :=
          match p.history with
          | none => reg.slopesMap
          | some h => Function.update reg.slopesMap p.id (some (slopesOf h)) })
    reg

/-- First-occurrence deduplication, the key order of a JavaScript `Map`
built by repeated insertion. -/
def firstDedup : List ℕ → List ℕ
  | [] => []
  | a :: l => a :: (firstDedup l).filter (fun b => b ≠ a)

/-- The region ids encountered while iterating the district map
(precincts whose state lookup misses are dropped), in first-appearance
order — the key order of the `statePrecincts` map. -/
def statesOf (reg : Reg) : List ℕ :=
  firstDedup (reg.districtMap.filterMap (fun kv => reg.stateMap kv.1))

/-- Bounding-box midpoint of a coordinate list (the centroid computed
by the `AUTO_REDISTRICT` grouping); `(0, 0)` when there are no
coordinates. -/
def bboxMid : List (ℚ × ℚ) → ℚ × ℚ
  | [] => (0, 0)
  | c :: t =>
      let box := t.foldl
        (fun (b : ℚ × ℚ × ℚ × ℚ) q =>
          (min b.1 q.1, min b.2.1 q.2, max b.2.2.1 q.1, max b.2.2.2 q.2))
        (c.1, c.2, c.1, c.2)
      ((box.1 + box.2.2.1) / 2, (box.2.1 + box.2.2.2) / 2)

/-- The precincts of region `s`, in district-map order, with the fields
the handlers copy out of the registry (`mk` builds the per-handler
record from id and current district). -/
def groupFor (reg : Reg) (mk : ℕ → ℕ → Precinct) (s : ℕ) : List Precinct :=
  reg.districtMap.filterMap
    (fun kv => if reg.stateMap kv.1 = some s then some (mk kv.1 kv.2) else none)

/-- `AUTO_REDISTRICT` group records: id, district, population
(`stats?.[0] || 0`, carried in the stats slot) and the bounding-box
centroid. -/
def autoStatePrec (reg : Reg) (s : ℕ) : List Precinct :=
  groupFor reg
    (fun pid did =>
      let c := bboxMid ((reg.coordsMap pid).getD [])
      { id := pid, districtId := did, x := c.1, y := c.2
        stats := { zeroStats with pop := ((reg.statsMap pid).map (fun st => st.pop)).getD 0 }
        slopes := zeroSlopes })
    s

/-- `SIMULATED_ANNEALING` group records: id, district, zero coordinates,
and the stored stats and slopes (empty-array defaults when absent). -/
def saStatePrec (reg : Reg) (s : ℕ) : List Precinct :=
  groupFor reg
    (fun pid did =>
      { id := pid, districtId := did, x := 0, y := 0
        stats := (reg.statsMap pid).getD zeroStats
        slopes := (reg.slopesMap pid).getD zeroSlopes })
    s

/-- Apply a batch of `(id, districtId)` updates to the district map
(the `precinctDistrictMap.set` calls of the region loops). -/
def applyUpdates (m : List (ℕ × ℕ)) (us : List (ℕ × ℕ)) : List (ℕ × ℕ) :=
  us.foldl (fun m u => assocSet m u.1 u.2) m

/-- Per-region updates of `AUTO_REDISTRICT`: a region with no
apportionment entry contributes nothing (`if (!apportionment) return`);
otherwise run `seedAndGrow` for the region and namespace the resulting
district ids as `stateId * 100 + localDistrictId`. -/
def stateUpdatesAuto (apportion : ℕ → Option ℕ) (g : ℕ → ℕ → ℕ) (reg : Reg)
    (s : ℕ) : List (ℕ × ℕ) :=
  match apportion s with
  | none => []
  | some dc =>
      (seedAndGrow (autoStatePrec reg s) dc (g s)).map
        (fun kv => (kv.1, s * 100 + kv.2))

/-- The `AUTO_REDISTRICT` handler: group by region, run the seeding per
apportioned region, collect all updates and apply them to the district
map.  (The source applies each region's sets inside the loop; the
groups are materialized before the loop, so batching at the end is
equivalent.) -/
def autoRedistrict (apportion : ℕ → Option ℕ) (g : ℕ → ℕ → ℕ) (reg : Reg) :
    List (ℕ × ℕ) × Reg :=
  let updates := (statesOf reg).flatMap (stateUpdatesAuto apportion g reg)
  (updates, { reg with districtMap := applyUpdates reg.districtMap updates })

/-- The run count of a `SIMULATED_ANNEALING` task: the explicit user
count, or `100 + 500 × constraintCount` in automatic mode, capped at
50000. -/
def effectiveRuns (cs : List Constraint) (userRuns : ℕ) (isAuto : Bool) : ℕ :=
  min (if isAuto then 100 + cs.length * 500 else userRuns) 50000

/-- Render a region's best assignment as namespaced updates
(`bestAssignment.forEach`, whose key order is the group order). -/
def renderAssign (group : List Precinct) (a : Assignment) (s : ℕ) : List (ℕ × ℕ) :=
  group.map (fun p => (p.id, s * 100 + a p.id))

/-- One ensemble member: the simulated-annealing run `i` for region `s`
(`simulatedAnnealing(precincts, { districtCount, constraints })` inside
the ensemble loop, driven by run `i`'s random streams). -/
def saRunOf (streams : ℕ → ℕ → SAStream) (reg : Reg) (s dc : ℕ)
    (cs : List Constraint) (i : ℕ) : Assignment × ℚ :=
  saRun (saStatePrec reg s) dc cs (streams s i)

/-- Per-region updates of `SIMULATED_ANNEALING`: skip regions without
an apportionment entry; otherwise run the ensemble and render the
best-of-runs assignment (nothing when `bestAssignment` stayed null). -/
def saProcessState (apportion : ℕ → Option ℕ) (streams : ℕ → ℕ → SAStream)
    (cs : List Constraint) (runs : ℕ) (reg : Reg) (s : ℕ) : List (ℕ × ℕ) :=
  match apportion s with
  | none => []
  | some dc =>
      match bestOfRuns runs (saRunOf streams reg s dc cs) with
      | none => []
      | some b => renderAssign (saStatePrec reg s) b.1 s

/-- The `SIMULATED_ANNEALING` handler. -/
def simAnnealTask (apportion : ℕ → Option ℕ) (streams : ℕ → ℕ → SAStream)
    (cs : List Constraint) (userRuns : ℕ) (isAuto : Bool) (reg : Reg) :
    List (ℕ × ℕ) × Reg :=
  let runs := effectiveRuns cs userRuns isAuto
  let updates := (statesOf reg).flatMap (saProcessState apportion streams cs runs reg)
  (updates, { reg with districtMap := applyUpdates reg.districtMap updates })

/-! ## `GENERATE_BORDERS`

All geometry operations (`turf.polygon/union/simplify/bezierSpline`)
are the external geometry capability of the specification; they are
passed in as an oracle over an abstract geometry type.  A `union` call
that throws is reported as `none` — the handler catches it and keeps
the previous merge result. -/

/-- Generic association-list lookup. -/
def assocFind {κ α : Type} [DecidableEq κ] (m : List (κ × α)) (k : κ) : Option α :=
  (m.find? (fun kv => kv.1 = k)).map (fun kv => kv.2)

/-- Generic insertion-ordered upsert: apply `f` to an existing value,
or append `(k, dflt)` when the key is absent. -/
def assocUpsert {κ α : Type} [DecidableEq κ] (m : List (κ × α)) (k : κ)
    (f : α → α) (dflt : α) : List (κ × α) :=
  match m with
  | [] => [(k, dflt)]
  | (k', v) :: t =>
      if k' = k then (k', f v) :: t else (k', v) :: assocUpsert t k f dflt

/-- The external geometry capability. -/
structure GeoOracle (G : Type) where
  polygon : List (ℚ × ℚ) → G
  unionG : G → G → Option G
  simplify : G → G
  smooth : G → G

/-- Close a ring by repeating its first point when the last point
differs from it. -/
def closeRing (cs : List (ℚ × ℚ)) : List (ℚ × ℚ) :=
  match cs with
  | [] => []
  | c :: t => if (c :: t).getLastD c ≠ c then (c :: t) ++ [c] else c :: t

/-- Precinct ids grouped by their current district, in district-map
order (`districtPrecincts`). -/
def districtGroups (reg : Reg) : List (ℕ × List ℕ) :=
  reg.districtMap.foldl
    (fun m kv => assocUpsert m kv.2 (fun l => l ++ [kv.1]) [kv.1]) []

/-- Merge one district's precinct polygons: skip precincts without at
least three coordinate pairs, union the rest one by one, keeping the
previous merge when a union throws. -/
def mergeDistrict {G : Type} (geo : GeoOracle G) (reg : Reg) (pids : List ℕ) :
    Option G :=
  pids.foldl
    (fun merged pid =>
      match reg.coordsMap pid with
      | none => merged
      | some cs =>
          if cs.length < 3 then merged
          else
            let poly := geo.polygon (closeRing cs)
            match merged with
            | none => some poly
            | some m =>
                match geo.unionG m poly with
                | none => some m
                | some u => some u)
    none

/-- The `GENERATE_BORDERS` handler: per district, the merged geometry
simplified and smoothed; districts whose merge produced nothing are
dropped. -/
def generateBorders {G : Type} (geo : GeoOracle G) (reg : Reg) : List (ℕ × G) :=
  (districtGroups reg).filterMap
    (fun dg =>
      match mergeDistrict geo reg dg.2 with
      | none => none
      | some m => some (dg.1, geo.smooth (geo.simplify m)))

/-! ## `RUN_ANALYSIS` -/

/-- Add a stats vector into an analysis accumulator (same sums as the
cost model's aggregation; the slopes stride is unused here). -/
def addStatsAgg (agg : DistrictAgg) (st : Stats) : DistrictAgg :=
  { agg with
    pop := agg.pop + st.pop, dem := agg.dem + st.dem, rep := agg.rep + st.rep
    white := agg.white + st.white, black := agg.black + st.black
    hispanic := agg.hispanic + st.hispanic
    eduProd := agg.eduProd + st.edu * st.pop
    incProd := agg.incProd + st.inc * st.pop }

/-- Per-district aggregates of `RUN_ANALYSIS` (precincts without stats
are skipped). -/
def districtStatsAgg (reg : Reg) : List (ℕ × DistrictAgg) :=
  reg.districtMap.foldl
    (fun m kv =>
      match reg.statsMap kv.1 with
      | none => m
      | some st => assocUpsert m kv.2 (fun agg => addStatsAgg agg st) (addStatsAgg zeroAgg st))
    []

/-- Year-bucket accumulation of district history: the first precinct's
entry is cloned as-is; later entries add their counts, with education
and income accumulated as population-weighted products (exactly as the
source does, including the unweighted first entry). -/
def addHist (cur h : HistEntry) : HistEntry :=
  { cur with
    population := cur.population + h.population
    demVotes := cur.demVotes + h.demVotes
    repVotes := cur.repVotes + h.repVotes
    white := cur.white + h.white
    black := cur.black + h.black
    hispanic := cur.hispanic + h.hispanic
    education := cur.education + h.education * h.population
    income := cur.income + h.income * h.population }

/-- Per-district, per-year aggregated history (`districtHistory`);
precincts without stats are skipped before the history aggregation,
as in the source. -/
def districtHistoryAgg (reg : Reg) : List (ℕ × List (ℚ × HistEntry)) :=
  reg.districtMap.foldl
    (fun m kv =>
      match reg.statsMap kv.1 with
      | none => m
      | some _ =>
          match reg.historyMap kv.1 with
          | none => m
          | some hist =>
              assocUpsert m kv.2
                (fun dh => hist.foldl (fun dh h => assocUpsert dh h.year (fun cur => addHist cur h) h) dh)
                (hist.foldl (fun dh h => assocUpsert dh h.year (fun cur => addHist cur h) h) []))
    []

/-- One row of the analysis response. -/
structure DistrictRow where
  id : ℕ
  population : ℚ
  demVotes : ℚ
  repVotes : ℚ
  white : ℚ
  black : ℚ
  hispanic : ℚ
  education : ℚ
  income : ℚ
  efficiencyGap : ℚ
  history : List HistEntry

/-- The district rows assembled by `RUN_ANALYSIS`: aggregate totals,
population-weighted education/income averages, and the per-year history
(weighted rates divided out, sorted by year; `efficiencyGap` is filled
in by `runAnalysis` afterwards). -/
def analysisDistricts (reg : Reg) : List DistrictRow :=
  (districtStatsAgg reg).map
    (fun en =>
      let hist :=
        match assocFind (districtHistoryAgg reg) en.1 with
        | none => []
        | some dh =>
            (dh.map
              (fun yh =>
                { yh.2 with
                  education := if 0 < yh.2.population then yh.2.education / yh.2.population else 0
                  income := if 0 < yh.2.population then yh.2.income / yh.2.population else 0 })).insertionSort
              (fun a b => a.year ≤ b.year)
      { id := en.1
        population := en.2.pop, demVotes := en.2.dem, repVotes := en.2.rep
        white := en.2.white, black := en.2.black, hispanic := en.2.hispanic
        education := if (0 : ℚ) < en.2.pop then en.2.eduProd / en.2.pop else 0
        income := if (0 : ℚ) < en.2.pop then en.2.incProd / en.2.pop else 0
        efficiencyGap := 0
        history := hist })

/-- `Math.round`: round half up, `⌊x + 1/2⌋`. -/
def jsRound (q : ℚ) : ℚ := (⌊q + 1 / 2⌋ : ℤ)

/-- Efficiency gap of one district (`runAnalysis` in `analysis.ts`):
wasted-vote difference over total votes, with the win threshold
`⌊total/2⌋ + 1`. -/
def efficiencyGapOf (dem rep : ℚ) : ℚ :=
  let totalVotes := dem + rep
  if 0 < totalVotes then
    let winThreshold : ℚ := ((⌊totalVotes / 2⌋ : ℤ) : ℚ) + 1
    let wastedDem := if rep < dem then dem - winThreshold else dem
    let wastedRep := if rep < dem then rep else rep - winThreshold
    (wastedDem - wastedRep) / totalVotes
  else 0

/-- `runAnalysis`: fill in each row's efficiency gap. -/
def runAnalysisRows (rows : List DistrictRow) : List DistrictRow :=
  rows.map (fun r => { r with efficiencyGap := efficiencyGapOf r.demVotes r.repVotes })

/-- The partisan-swing projections: shift each precinct's two-party
lean towards its district's lean by the swing factor `0.15`, clamp the
share to `[0, 1]`, and round the projected Democratic votes. -/
def projectionsOf (reg : Reg) (dsAgg : List (ℕ × DistrictAgg)) :
    List (ℕ × ℚ × ℚ) :=
  reg.districtMap.filterMap
    (fun kv =>
      match reg.statsMap kv.1 with
      | none => none
      | some st =>
          match assocFind dsAgg kv.2 with
          | none => none
          | some d =>
              if d.pop = 0 then none
              else
                let dTotal := d.dem + d.rep
                let dDemShare := if 0 < dTotal then d.dem / dTotal else 1 / 2
                let pTotal := st.dem + st.rep
                let pDemShare := if 0 < pTotal then st.dem / pTotal else 1 / 2
                let swing := (dDemShare - pDemShare) * (15 / 100)
                let newDemShare := max 0 (min 1 (pDemShare + swing))
                let newDem := jsRound (pTotal * newDemShare)
                some (kv.1, (newDem, pTotal - newDem)))

/-! ## Task protocol and dispatch (`self.onmessage`)

Each task kind carries its fixed payload shape (`SIMULATED_ANNEALING`'s
`runs`/`isAuto` are optional with defaults 1/false).  `PONG` is a
member of the message-type enum with no handler arm, so it falls to the
`default` arm and throws. -/

/-- An incoming task with its payload. -/
inductive TaskMsg where
  | ping
  | pong
  | loadData (precincts : List LoadRec)
  | updateDistrict (precinctId newDistrict : ℕ)
  | runAnalysisT
  | autoRedistrictT
  | simulatedAnnealingT (constraints : List Constraint) (runs : Option ℕ) (isAuto : Option Bool)
  | generateBordersT

/-- The wire name of a task kind (for the unknown-type error string). -/
def taskName : TaskMsg → String
  | .ping => "PING"
  | .pong => "PONG"
  | .loadData _ => "LOAD_DATA"
  | .updateDistrict _ _ => "UPDATE_DISTRICT"
  | .runAnalysisT => "RUN_ANALYSIS"
  | .autoRedistrictT => "AUTO_REDISTRICT"
  | .simulatedAnnealingT _ _ _ => "SIMULATED_ANNEALING"
  | .generateBordersT => "GENERATE_BORDERS"

/-- Response data per task kind (`result`). -/
inductive WData (G : Type) where
  | pongToken
  | ack (b : Bool)
  | updates (us : List (ℕ × ℕ))
  | borders (bs : List (ℕ × G))
  | analysis (rows : List DistrictRow) (projs : List (ℕ × ℚ × ℚ))

/-- The dispatch switch of `self.onmessage`: run one task against the
registry, returning the mutated registry and the result, or the thrown
error (`Unknown message type` for the unhandled `PONG` kind). -/
def runTask {G : Type} (geo : GeoOracle G) (apportion : ℕ → Option ℕ)
    (gAuto : ℕ → ℕ → ℕ) (saStreams : ℕ → ℕ → SAStream) (reg : Reg) :
    TaskMsg → Except String (Reg × WData G)
  | .ping => .ok (reg, .pongToken)
  | .loadData recs => .ok (loadData reg recs, .ack true)
  | .updateDistrict pid nd =>
      .ok ({ reg with districtMap := assocSet reg.districtMap pid nd }, .ack true)
  | .autoRedistrictT =>
      let r := autoRedistrict apportion gAuto reg
      .ok (r.2, .updates r.1)
  | .simulatedAnnealingT cs runs isAuto =>
      let r := simAnnealTask apportion saStreams cs (runs.getD 1) (isAuto.getD false) reg
      .ok (r.2, .updates r.1)
  | .generateBordersT => .ok (reg, .borders (generateBorders geo reg))
  | .runAnalysisT =>
      .ok (reg, .analysis (runAnalysisRows (analysisDistricts reg))
                          (projectionsOf reg (districtStatsAgg reg)))
  | .pong => .error ("Unknown message type: " ++ taskName .pong)

/-- An incoming worker message: correlation id plus task. -/
structure WMessage where
  id : String
  task : TaskMsg

/-- The posted response: correlation id, success flag, and data or
error message. -/
structure WResponse (G : Type) where
  id : String
  success : Bool
  data : Option (WData G)
  error : Option String

/-- The `try`/`catch` wrapper of `self.onmessage`: exactly one response
is posted per message — on success `{id, success: true, data}` with the
updated registry, on a thrown error `{id, success: false, error}` with
the registry as the handler left it (the dispatch model mutates nothing
before throwing). -/
def onmessage {G : Type} (geo : GeoOracle G) (apportion : ℕ → Option ℕ)
    (gAuto : ℕ → ℕ → ℕ) (saStreams : ℕ → ℕ → SAStream) (reg : Reg)
    (m : WMessage) : Reg × WResponse G :=
  match runTask geo apportion gAuto saStreams reg m.task with
  | .ok rd => (rd.1, ⟨m.id, true, some rd.2, none⟩)
  | .error e => (reg, ⟨m.id, false, none, some e⟩)

/-! ## Worker pool scheduler (`WorkerManager`, second revision)

State: the per-worker busy flags (one per live worker, so the worker
count is `busy.length`), the FIFO task queue, and the pending-response
table, modelled by the queued/pending task ids.  Settlements and
dispatches are reported as events; a submit whose future is never
resolved or rejected produces no settlement event anywhere. -/

/-- Observable scheduler actions. -/
inductive WMEvent where
  | dispatched (workerIdx : ℕ) (taskId : String)
  | resolvedTask (taskId : String)
  | rejectedTask (taskId : String)
  deriving DecidableEq

/-- Scheduler state (`workers`/`workerBusy` collapse to the busy-flag
list; `poolSize` is the bookkeeping field of the source, tracked in `ℤ`
because the source decrements it without a lower bound). -/
structure WMState where
  busy : List Bool
  queue : List String
  pending : List String
  poolSize : ℤ
  deriving DecidableEq

/-- `processQueue`: nothing to do on an empty queue; otherwise find the
first idle worker (first-fit scan of the busy flags), and if one
exists, shift the head task, mark the worker busy, register the pending
response and post the message to the worker. -/
def processQueue (wm : WMState) : WMState × Option WMEvent :=
  match wm.queue with
  | [] => (wm, none)
  | t :: rest =>
      match wm.busy.findIdx? (fun b => !b) with
      | none => (wm, none)
      | some i =>
          ({ wm with
              busy := wm.busy.set i true
              queue := rest
              pending := wm.pending ++ [t] },
           some (.dispatched i t))

/-- `sendMessage`: append the task to the FIFO queue and attempt
dispatch; the returned promise is settled only by a later
`resolvedTask`/`rejectedTask` event carrying its id. -/
def sendMessage (wm : WMState) (taskId : String) : WMState × Option WMEvent :=
  processQueue { wm with queue := wm.queue ++ [taskId] }

/-- `handleWorkerResponse`: clear the worker's busy flag, settle the
matching pending entry (resolve on success, reject on failure), and
re-scan the queue. -/
def handleWorkerResponse (wm : WMState) (workerIdx : ℕ) (respId : String)
    (succ : Bool) : WMState × List WMEvent :=
  let wm1 := { wm with busy := wm.busy.set workerIdx false }
  let settled :=
    if respId ∈ wm1.pending then
      ({ wm1 with pending := wm1.pending.filter (fun t => t ≠ respId) },
       [if succ then WMEvent.resolvedTask respId else WMEvent.rejectedTask respId])
    else (wm1, ([] : List WMEvent))
  let after := processQueue settled.1
  (after.1, settled.2 ++ after.2.toList)

/-- `terminate`: terminate every worker and empty the worker and
busy-flag lists; the queue and pending table are left as they are. -/
def terminate (wm : WMState) : WMState := { wm with busy := [] }

/-- `addWorker`: spawn one worker with a clear busy flag. -/
def addWorker (wm : WMState) : WMState := { wm with busy := wm.busy ++ [false] }

/-- `removeWorker`: a no-op when at most one worker remains (`if
(this.workers.length <= 1) return`), otherwise pop and terminate the
last worker. -/
def removeWorker (wm : WMState) : WMState :=
  if wm.busy.length ≤ 1 then wm
  else { wm with busy := wm.busy.dropLast, poolSize := wm.poolSize - 1 }

/-- Add `n` workers. -/
def addN : ℕ → WMState → WMState
  | 0, wm => wm
  | n + 1, wm => addN n (addWorker wm)

/-- Remove `n` workers (each removal floors at one worker). -/
def removeN : ℕ → WMState → WMState
  | 0, wm => wm
  | n + 1, wm => removeN n (removeWorker wm)

/-- `resizePool`: add or remove workers towards the requested size
(with no ceiling check on growth), then record the requested size. -/
def resizePool (wm : WMState) (newSize : ℕ) : WMState :=
  let len := wm.busy.length
  let wm' :=
    if len < newSize then addN (newSize - len) wm
    else if newSize < len then removeN (len - newSize) wm
    else wm
  { wm' with poolSize := (newSize : ℤ) }

/-- The hardware-derived worker ceiling of the adaptive policy:
`maxWorkers = cores` (`navigator.hardwareConcurrency || 4`). -/
def maxWorkersOf (cores : ℕ) : ℕ := cores

/-- `updateLoad`: shrink by one under high load or memory pressure
(never below one worker), grow by one when running smoothly with a
backlog (never above the hardware ceiling). -/
def updateLoad (wm : WMState) (fps memoryUsed : ℚ) (cores : ℕ) : WMState :=
  if (fps < 30 ∨ 500 < memoryUsed) ∧ 1 < wm.busy.length then
    resizePool wm (wm.busy.length - 1)
  else if 55 < fps ∧ memoryUsed < 300 ∧ wm.busy.length < maxWorkersOf cores ∧
      5 < wm.queue.length then
    resizePool wm (wm.busy.length + 1)
  else wm

/-! ## Concrete sample data used by witnesses and counterexamples -/

/-- A precinct with the given id, district and population at the given
coordinates. -/
def mkPrec (pid did : ℕ) (popn x y : ℚ) : Precinct :=
  { id := pid, districtId := did, x := x, y := y
    stats := { zeroStats with pop := popn }, slopes := zeroSlopes }

/-- A population-only constraint. -/
def mkPopConstraint (o : COperator) (v tgt : ℚ) : Constraint :=
  { metric := .population, metricType := none, op := o, value := v
    maxValue := none, targetPercent := tgt }

/-- The trivial geometry oracle over `Unit`, used to instantiate
dispatcher theorems at concrete inputs. -/
def unitGeo : GeoOracle Unit :=
  { polygon := fun _ => (), unionG := fun _ _ => some (), simplify := fun g => g
    smooth := fun g => g }

/-- A constant-zero annealing stream. -/
def zeroStream : SAStream :=
  { pick := fun _ => 0, districtDraw := fun _ => 0, metro := fun _ => false }

/-- A two-region sample registry: precinct 1 in region 7, precinct 2 in
region 8, five residents each. -/
def sampleReg : Reg :=
  { districtMap := [(1, 1), (2, 1)]
    statsMap := fun _ => some { zeroStats with pop := 5 }
    slopesMap := fun _ => none
    stateMap := fun pid => if pid = 1 then some 7 else some 8
    coordsMap := fun _ => none
    historyMap := fun _ => none }

/-- A sample apportionment table: region 8 gets one district, every
other region (in particular region 7) has no entry. -/
def sampleApportion : ℕ → Option ℕ := fun s => if s = 8 then some 1 else none

/-- Three collinear precincts at x = 0, 10, 20. -/
def seedPsX : List Precinct :=
  [mkPrec 1 0 1 0 0, mkPrec 2 0 1 10 0, mkPrec 3 0 1 20 0]

/-- An adversarial random stream for the seeding loop: index 0 for the
first 101 draws, index 1 afterwards — so round 0 seeds precinct 1,
round 1 burns all 100 attempts on the already-used precinct 1, and
round 2 seeds precinct 2. -/
def seedGX : ℕ → ℕ := fun t => if 101 ≤ t then 1 else 0

/-! # Theorems -/

/-! ## Worker-pool lifecycle (C5) -/

/-- C5 (counterexample).  Submitting to a torn-down pool at a concrete
state: after `terminate` of a two-worker pool, `sendMessage` neither
rejects the task nor raises any event — the submit produces no event at
all (in particular no `rejectedTask`) and leaves the task queued, so
the claim that a submit after teardown fails fast is false. -/
theorem sendMessage_after_terminate_stalls_cex :
    sendMessage (terminate ⟨[false, false], [], [], 2⟩) "t1"
      = (⟨[], ["t1"], [], 2⟩, none) := by
  rfl

/-- C5 (amended).  Submitting to a torn-down pool silently stalls:
`terminate` empties the worker/busy lists but leaves the queue and the
pending table untouched, and a subsequent `sendMessage` on a pool with
no workers merely appends the task to the FIFO queue, dispatching
nothing and settling nothing — the returned future is neither resolved
nor rejected. -/
theorem submit_after_teardown_silently_queues :
    (∀ wm : WMState,
      (terminate wm).busy = [] ∧ (terminate wm).queue = wm.queue ∧
        (terminate wm).pending = wm.pending) ∧
    (∀ (wm : WMState) (tid : String), wm.busy = [] →
      sendMessage wm tid = ({ wm with queue := wm.queue ++ [tid] }, none)) := by
  refine ⟨fun wm => ⟨rfl, rfl, rfl⟩, fun wm tid h => ?_⟩
  unfold sendMessage processQueue
  rcases hq : wm.queue ++ [tid] with _ | ⟨t, rest⟩
  · exact absurd hq (by simp)
  · simp only [hq, h, List.findIdx?_nil]

/-- C5 witness: the amended statement applied to the concrete
terminated one-task pool. -/
theorem submit_after_teardown_silently_queues_witness :
    sendMessage ⟨[], ["a"], [], 0⟩ "b" = (⟨[], ["a", "b"], [], 0⟩, none) :=
  submit_after_teardown_silently_queues.2 ⟨[], ["a"], [], 0⟩ "b" rfl

/-! ## Worker-pool resize bounds (C7) -/

theorem addN_busy (n : ℕ) :
    ∀ wm : WMState, (addN n wm).busy.length = wm.busy.length + n := by
  induction n with
  | zero => intro wm; simp [addN]
  | succ n ih =>
      intro wm
      rw [addN, ih]
      simp [addWorker]
      omega

theorem removeWorker_busy_le (wm : WMState) :
    (removeWorker wm).busy.length ≤ wm.busy.length := by
  unfold removeWorker
  split
  · exact le_refl _
  · simp [List.length_dropLast]

theorem removeWorker_busy_ge_one (wm : WMState) (h : 1 ≤ wm.busy.length) :
    1 ≤ (removeWorker wm).busy.length := by
  unfold removeWorker
  split
  · exact h
  · simp only [List.length_dropLast]
    omega

theorem removeWorker_busy_exact (wm : WMState) (h : 1 < wm.busy.length) :
    (removeWorker wm).busy.length = wm.busy.length - 1 := by
  unfold removeWorker
  rw [if_neg (by omega)]
  simp [List.length_dropLast]

theorem removeN_busy_ge_one (n : ℕ) :
    ∀ wm : WMState, 1 ≤ wm.busy.length → 1 ≤ (removeN n wm).busy.length := by
  induction n with
  | zero => intro wm h; exact h
  | succ n ih =>
      intro wm h
      rw [removeN]
      exact ih _ (removeWorker_busy_ge_one wm h)

theorem removeN_busy_le (n : ℕ) :
    ∀ wm : WMState, (removeN n wm).busy.length ≤ wm.busy.length := by
  induction n with
  | zero => intro wm; exact le_refl _
  | succ n ih =>
      intro wm
      rw [removeN]
      exact le_trans (ih _) (removeWorker_busy_le wm)

theorem resizePool_shrink_one_busy (wm : WMState) (h : 1 < wm.busy.length) :
    (resizePool wm (wm.busy.length - 1)).busy = (removeWorker wm).busy := by
  unfold resizePool
  simp only
  rw [if_neg (by omega), if_pos (by omega)]
  have h1 : wm.busy.length - (wm.busy.length - 1) = 1 := by omega
  rw [h1]
  rfl

theorem resizePool_grow_one_busy (wm : WMState) :
    (resizePool wm (wm.busy.length + 1)).busy = (addWorker wm).busy := by
  unfold resizePool
  simp only
  rw [if_pos (by omega)]
  have h1 : wm.busy.length + 1 - wm.busy.length = 1 := by omega
  rw [h1]
  rfl

/-- C7 (counterexample).  A grow requested when the pool already holds
the hardware ceiling is not a no-op: `resizePool` has no ceiling check,
so resizing a four-worker pool (the ceiling for four cores) to five
yields five workers, above the ceiling. -/
theorem pool_resize_ceiling_cex :
    maxWorkersOf 4 < (resizePool ⟨[false, false, false, false], [], [], 4⟩ 5).busy.length := by
  decide

/-- C7 (amended).  The floor of one worker is enforced everywhere — a
shrink at exactly one worker is a no-op and `resizePool` never drops
below one worker — and the adaptive `updateLoad` policy preserves
`1 ≤ worker count ≤ maxWorkers cores`; the ceiling, however, binds only
the `updateLoad` grow path, not direct `resizePool` calls (see the
counterexample). -/
theorem pool_floor_and_adaptive_ceiling :
    (∀ wm : WMState, wm.busy.length = 1 → removeWorker wm = wm) ∧
    (∀ (wm : WMState) (n : ℕ), 1 ≤ wm.busy.length →
      1 ≤ (resizePool wm n).busy.length) ∧
    (∀ (wm : WMState) (fps memoryUsed : ℚ) (cores : ℕ),
      1 ≤ wm.busy.length → wm.busy.length ≤ maxWorkersOf cores →
      1 ≤ (updateLoad wm fps memoryUsed cores).busy.length ∧
        (updateLoad wm fps memoryUsed cores).busy.length ≤ maxWorkersOf cores) := by
  refine ⟨?_, ?_, ?_⟩
  · intro wm h
    unfold removeWorker
    rw [if_pos (by omega)]
  · intro wm n h
    unfold resizePool
    simp only
    split
    · rename_i hlt
      show 1 ≤ (addN (n - wm.busy.length) wm).busy.length
      rw [addN_busy]
      omega
    · split
      · exact removeN_busy_ge_one _ _ h
      · exact h
  · intro wm fps memoryUsed cores h1 h2
    unfold updateLoad
    split
    · rename_i hc
      have hgt : 1 < wm.busy.length := hc.2
      have hb := resizePool_shrink_one_busy wm hgt
      have he := removeWorker_busy_exact wm hgt
      constructor
      · rw [hb, he]; omega
      · rw [hb, he]; omega
    · split
      · rename_i hc
        have hb := resizePool_grow_one_busy wm
        have hlen : (addWorker wm).busy.length = wm.busy.length + 1 := by
          simp [addWorker]
        constructor
        · rw [hb, hlen]; omega
        · rw [hb, hlen]
          exact hc.2.2.1
      · exact ⟨h1, h2⟩

/-- C7 witness: the amended statement applied at concrete pools — the
one-worker shrink no-op, a `resizePool 0` floored at one worker, and an
`updateLoad` step on a two-worker pool under a four-core ceiling. -/
theorem pool_floor_and_adaptive_ceiling_witness :
    removeWorker ⟨[false], [], [], 1⟩ = ⟨[false], [], [], 1⟩ ∧
    1 ≤ (resizePool ⟨[false], [], [], 1⟩ 0).busy.length ∧
    1 ≤ (updateLoad ⟨[false, false], [], [], 2⟩ 60 100 4).busy.length ∧
    (updateLoad ⟨[false, false], [], [], 2⟩ 60 100 4).busy.length ≤ maxWorkersOf 4 :=
  ⟨pool_floor_and_adaptive_ceiling.1 _ (by decide),
   pool_floor_and_adaptive_ceiling.2.1 _ 0 (by decide),
   (pool_floor_and_adaptive_ceiling.2.2 _ 60 100 4 (by decide) (by decide)).1,
   (pool_floor_and_adaptive_ceiling.2.2 _ 60 100 4 (by decide) (by decide)).2⟩

/-! ## Population conservation in aggregation (C1) -/

theorem aggregate_append (dc : ℕ) (ps : List Precinct) (p : Precinct)
    (a : Assignment) :
    aggregate dc (ps ++ [p]) a =
      if a p.id ≤ dc then
        Function.update (aggregate dc ps a) (a p.id)
          (addPrecinct (aggregate dc ps a (a p.id)) p)
      else aggregate dc ps a := by
  simp [aggregate, List.foldl_append]

theorem totalPop_append (ps : List Precinct) (p : Precinct) :
    totalPop (ps ++ [p]) = totalPop ps + p.stats.pop := by
  simp [totalPop]

theorem sum_map_update_pop (l : List ℕ) (hnd : l.Nodup) (buf : ℕ → DistrictAgg)
    (d : ℕ) (hd : d ∈ l) (agg : DistrictAgg) :
    (l.map (fun x => (Function.update buf d agg x).pop)).sum
      = (l.map (fun x => (buf x).pop)).sum + agg.pop - (buf d).pop := by
  induction l with
  | nil => cases hd
  | cons hdx t ih =>
      by_cases hda : hdx = d
      · subst hda
        have hnot : hdx ∉ t := (List.nodup_cons.mp hnd).1
        have hmap : t.map (fun x => (Function.update buf hdx agg x).pop)
            = t.map (fun x => (buf x).pop) := by
          apply List.map_congr_left
          intro x hx
          rw [Function.update_noteq (ne_of_mem_of_not_mem hx hnot)]
        simp only [List.map_cons, List.sum_cons, hmap, Function.update_same]
        ring
      · have hdt : d ∈ t := by
          rcases List.mem_cons.mp hd with h' | h'
          · exact absurd h'.symm hda
          · exact h'
        have ih' := ih (List.nodup_cons.mp hnd).2 hdt
        simp only [List.map_cons, List.sum_cons, ih',
          Function.update_noteq hda]
        ring

theorem aggregateMap_append (ps : List Precinct) (p : Precinct) (a : Assignment) :
    aggregateMap (ps ++ [p]) a =
      setOrInit (aggregateMap ps a) (a p.id) (fun agg => addPrecinct agg p) zeroAgg := by
  simp [aggregateMap, List.foldl_append]

theorem setOrInit_addPrecinct_pop_sum (m : List (ℕ × DistrictAgg)) (k : ℕ)
    (p : Precinct) :
    ((setOrInit m k (fun agg => addPrecinct agg p) zeroAgg).map
        (fun en => en.2.pop)).sum
      = (m.map (fun en => en.2.pop)).sum + p.stats.pop := by
  induction m with
  | nil =>
      show (addPrecinct zeroAgg p).pop + 0 = 0 + p.stats.pop
      show zeroAgg.pop + p.stats.pop + 0 = 0 + p.stats.pop
      show (0 : ℚ) + p.stats.pop + 0 = 0 + p.stats.pop
      ring
  | cons hd t ih =>
      obtain ⟨k', v⟩ := hd
      unfold setOrInit
      by_cases hk : k' = k
      · rw [if_pos hk]
        show (addPrecinct v p).pop + (t.map (fun en => en.2.pop)).sum
          = v.pop + (t.map (fun en => en.2.pop)).sum + p.stats.pop
        show v.pop + p.stats.pop + (t.map (fun en => en.2.pop)).sum
          = v.pop + (t.map (fun en => en.2.pop)).sum + p.stats.pop
        ring
      · rw [if_neg hk]
        simp only [List.map_cons, List.sum_cons, ih]
        ring

/-- C1 (counterexample).  A precinct assigned to district id 2 with
`districtCount = 1`: the buffer write falls outside the allocated
`Float64Array` and is silently dropped, so the per-district population
sum is 0 while the registry total is 5 — conservation fails when the
assignment maps a precinct outside `[1, districtCount]`. -/
theorem population_conservation_cex :
    ((districtRange 1).map
        (fun d => (aggregate 1 [mkPrec 1 1 5 0 0] (fun _ => 2) d).pop)).sum
      ≠ totalPop [mkPrec 1 1 5 0 0] := by
  norm_num [districtRange, aggregate, totalPop, mkPrec, zeroAgg, zeroStats,
    List.range']

/-- C1 (amended).  Conservation of population by the aggregation step:
the flat-buffer cost model conserves the total whenever every assigned
district id lies in `[1, districtCount]` (outside that range the write
is dropped, see the counterexample); the Map-based aggregation of the
second revision conserves the total for every assignment, with no
range restriction. -/
theorem population_conservation :
    (∀ (dc : ℕ) (ps : List Precinct) (a : Assignment),
      (∀ p ∈ ps, 1 ≤ a p.id ∧ a p.id ≤ dc) →
      ((districtRange dc).map (fun d => (aggregate dc ps a d).pop)).sum
        = totalPop ps) ∧
    (∀ (ps : List Precinct) (a : Assignment),
      ((aggregateMap ps a).map (fun en => en.2.pop)).sum = totalPop ps) := by
  constructor
  · intro dc ps a
    induction ps using List.reverseRecOn with
    | nil =>
        intro _
        simp [aggregate, totalPop, zeroAgg]
    | append_singleton ps p ih =>
        intro h
        have hp := h p (List.mem_append_right _ (List.mem_singleton_self p))
        have hps := fun q hq => h q (List.mem_append_left _ hq)
        rw [aggregate_append, if_pos hp.2, totalPop_append, ← ih hps]
        have hmem : a p.id ∈ districtRange dc := by
          unfold districtRange
          rw [List.mem_range'_1]
          exact ⟨hp.1, by omega⟩
        rw [sum_map_update_pop (districtRange dc) (List.nodup_range' 1 dc) _ _ hmem]
        have haddpop : (addPrecinct (aggregate dc ps a (a p.id)) p).pop
            = (aggregate dc ps a (a p.id)).pop + p.stats.pop := rfl
        rw [haddpop]
        ring
  · intro ps a
    induction ps using List.reverseRecOn with
    | nil => simp [aggregateMap, totalPop]
    | append_singleton ps p ih =>
        rw [aggregateMap_append, setOrInit_addPrecinct_pop_sum, ih,
          totalPop_append]

/-- C1 witness: two precincts with populations 3 and 4 assigned to
districts 1 and 2 of a two-district buffer conserve the total 7. -/
theorem population_conservation_witness :
    ((districtRange 2).map
        (fun d => (aggregate 2 [mkPrec 1 1 3 0 0, mkPrec 2 2 4 0 0]
          (fun pid => pid) d).pop)).sum
      = totalPop [mkPrec 1 1 3 0 0, mkPrec 2 2 4 0 0] :=
  population_conservation.1 2 [mkPrec 1 1 3 0 0, mkPrec 2 2 4 0 0]
    (fun pid => pid) (by decide)

/-! ## Cost formula (C2) -/

theorem aggregate_pop_nonneg (dc : ℕ) (a : Assignment) :
    ∀ ps : List Precinct, (∀ p ∈ ps, 0 ≤ p.stats.pop) →
      ∀ d, 0 ≤ (aggregate dc ps a d).pop := by
  intro ps
  induction ps using List.reverseRecOn with
  | nil =>
      intro _ d
      show (0 : ℚ) ≤ zeroAgg.pop
      norm_num [zeroAgg]
  | append_singleton ps p ih =>
      intro h d
      have hps := fun q hq => h q (List.mem_append_left _ hq)
      have hp := h p (List.mem_append_right _ (List.mem_singleton_self p))
      rw [aggregate_append]
      by_cases hle : a p.id ≤ dc
      · rw [if_pos hle]
        by_cases hd : d = a p.id
        · subst hd
          rw [Function.update_same]
          show 0 ≤ (aggregate dc ps a (a p.id)).pop + p.stats.pop
          exact add_nonneg (ih hps (a p.id)) hp
        · rw [Function.update_noteq hd]
          exact ih hps d
      · rw [if_neg hle]
        exact ih hps d

/-- C2.  On nonnegative populations (populations are counts), the cost
returned by `calculateCost` is exactly the specification's formula: the
sum over active districts (nonzero aggregated population) of
`|districtPopulation - targetPopulation| / targetPopulation` with
`targetPopulation = totalPopulation / districtCount`, plus
`|percentMeeting - targetPercent| * 10` per constraint, where
`percentMeeting` is the percentage of active districts whose metric
value satisfies the operator. -/
theorem cost_matches_spec (dc : ℕ) (cs : List Constraint) (ps : List Precinct)
    (a : Assignment) (h : ∀ p ∈ ps, 0 ≤ p.stats.pop) :
    calculateCost dc cs ps a = specCost dc cs ps a := by
  have hnn := aggregate_pop_nonneg dc a ps h
  unfold calculateCost specCost
  simp only
  congr 1
  · -- base cost: `pop > 0` and `pop ≠ 0` filter the same districts
    apply congrArg List.sum
    apply congrArg
    unfold specActive
    apply List.filter_congr
    intro d _
    by_cases hx : (aggregate dc ps a d).pop = 0
    · simp [hx]
    · simp [hx, lt_of_le_of_ne (hnn d) (Ne.symm hx)]
  · -- constraint cost: `max 1` only matters with no active district,
    -- where both percentages are zero
    apply congrArg List.sum
    apply List.map_congr_left
    intro c _
    unfold constraintPenalty specActive
    simp only
    rcases Nat.eq_zero_or_pos
        ((districtRange dc).filter
          (fun d => (aggregate dc ps a d).pop ≠ 0)).length with h0 | hpos
    · rw [h0, List.length_eq_zero.mp h0]
      norm_num
    · rw [Nat.max_eq_right hpos]

/-- C2 witness: the specification's own example — one district holding
the whole population of 100 with the constraint
`population ≥ 100, targetPercent 100`. -/
theorem cost_matches_spec_witness :
    calculateCost 1 [mkPopConstraint .ge 100 100] [mkPrec 1 1 100 0 0]
        (fun _ => 1)
      = specCost 1 [mkPopConstraint .ge 100 100] [mkPrec 1 1 100 0 0]
        (fun _ => 1) :=
  cost_matches_spec 1 [mkPopConstraint .ge 100 100] [mkPrec 1 1 100 0 0]
    (fun _ => 1) (by decide)

/-! ## Growth-rate constraint evaluation (C4) -/

/-- C4.  For a `growth`-typed constraint, the cost model's metric
evaluation is the spec formula `slope / currentValue * 100` at every
nonzero current value; the only guard is at exactly zero (where the
value stays `0`), and there is no floor for near-zero current values —
the evaluation is unbounded: it exceeds any bound at some nonzero
current value. -/
theorem growth_metric_unguarded :
    (∀ slope currentVal : ℚ, currentVal ≠ 0 →
      growthVal slope currentVal = slope / currentVal * 100) ∧
    (∀ slope : ℚ, growthVal slope 0 = 0) ∧
    (∀ B : ℚ, ∃ currentVal : ℚ, currentVal ≠ 0 ∧ B < growthVal 1 currentVal) ∧
    (∀ (c : Constraint) (agg : DistrictAgg), c.metricType = some .growth →
      evalMetric c agg =
        growthVal (growthParams c.metric agg).1 (growthParams c.metric agg).2) := by
  refine ⟨?_, ?_, ?_, ?_⟩
  · intro slope currentVal h
    unfold growthVal
    rw [if_pos h]
  · intro slope
    unfold growthVal
    simp
  · intro B
    have hpos : (0 : ℚ) < |B| + 1 := by positivity
    refine ⟨1 / (|B| + 1), one_div_ne_zero (ne_of_gt hpos), ?_⟩
    unfold growthVal
    rw [if_pos (one_div_ne_zero (ne_of_gt hpos)), one_div_one_div]
    nlinarith [le_abs_self B, abs_nonneg B]
  · intro c agg h
    unfold evalMetric
    rw [if_pos h]

/-- C4 witness: the growth formula at slope 3 over current value 2, the
zero-current guard, and unboundedness past 1000. -/
theorem growth_metric_unguarded_witness :
    growthVal 3 2 = 3 / 2 * 100 ∧ growthVal 7 0 = 0 ∧
    (∃ currentVal : ℚ, currentVal ≠ 0 ∧ 1000 < growthVal 1 currentVal) :=
  ⟨growth_metric_unguarded.1 3 2 (by norm_num), growth_metric_unguarded.2.1 7,
   growth_metric_unguarded.2.2.1 1000⟩

/-! ## Best-of-N ensemble (C3) -/

theorem bestOfRuns_succ {α : Type} (n : ℕ) (run : ℕ → α × ℚ) :
    bestOfRuns (n + 1) run =
      match bestOfRuns n run with
      | none => some (run n)
      | some b => if (run n).2 < b.2 then some (run n) else b := by
  unfold bestOfRuns
  rw [List.range_succ, List.foldl_append]
  rfl

theorem bestOfRuns_spec {α : Type} (runs : ℕ) (run : ℕ → α × ℚ) (h : 1 ≤ runs) :
    ∃ b, bestOfRuns runs run = some b ∧ (∃ i, i < runs ∧ run i = b) ∧
      ∀ i, i < runs → b.2 ≤ (run i).2 := by
  induction runs with
  | zero => omega
  | succ n ih =>
      rcases Nat.eq_zero_or_pos n with hn | hn
      · subst hn
        refine ⟨run 0, ?_, ⟨0, by omega, rfl⟩, ?_⟩
        · rw [bestOfRuns_succ]
          rfl
        · intro i hi
          have h0 : i = 0 := by omega
          subst h0
          exact le_refl _
      · obtain ⟨b, hb, ⟨j, hj, hjb⟩, hmin⟩ := ih hn
        rw [bestOfRuns_succ, hb]
        by_cases hcmp : (run n).2 < b.2
        · refine ⟨run n, by simp [hcmp], ⟨n, by omega, rfl⟩, ?_⟩
          intro i hi
          rcases Nat.lt_succ_iff_lt_or_eq.mp hi with h' | h'
          · exact le_trans (le_of_lt hcmp) (hmin i h')
          · subst h'
            exact le_refl _
        · refine ⟨b, by simp [hcmp], ⟨j, by omega, hjb⟩, ?_⟩
          intro i hi
          rcases Nat.lt_succ_iff_lt_or_eq.mp hi with h' | h'
          · exact hmin i h'
          · subst h'
            exact le_of_not_lt hcmp

theorem saProcessState_eq_render (apportion : ℕ → Option ℕ)
    (streams : ℕ → ℕ → SAStream) (cs : List Constraint) (runs : ℕ) (reg : Reg)
    (s dc : ℕ) (happ : apportion s = some dc) (b : Assignment × ℚ)
    (hb : bestOfRuns runs (saRunOf streams reg s dc cs) = some b) :
    saProcessState apportion streams cs runs reg s =
      renderAssign (saStatePrec reg s) b.1 s := by
  unfold saProcessState
  rw [happ]
  simp only [hb]

/-- C3.  For a region with an apportionment entry and at least one run,
the ensemble loop selects some run's `(assignment, cost)` pair whose
cost is ≤ the cost of every run observed, and the handler's updates for
that region render exactly that best assignment (which the handler also
writes back to the registry). -/
theorem ensemble_returns_min_cost (apportion : ℕ → Option ℕ)
    (streams : ℕ → ℕ → SAStream) (cs : List Constraint) (runs : ℕ) (reg : Reg)
    (s dc : ℕ) (hruns : 1 ≤ runs) (happ : apportion s = some dc) :
    ∃ b, bestOfRuns runs (saRunOf streams reg s dc cs) = some b ∧
      (∃ i, i < runs ∧ saRunOf streams reg s dc cs i = b) ∧
      (∀ i, i < runs → b.2 ≤ (saRunOf streams reg s dc cs i).2) ∧
      saProcessState apportion streams cs runs reg s =
        renderAssign (saStatePrec reg s) b.1 s := by
  have H := bestOfRuns_spec runs (saRunOf streams reg s dc cs) hruns
  obtain ⟨b, hb, hex, hmin⟩ := H
  exact ⟨b, hb, hex, hmin,
    saProcessState_eq_render apportion streams cs runs reg s dc happ b hb⟩

/-- C3 witness: on the sample registry's region 8 with a single run,
the handler's per-region updates render the single run's assignment. -/
theorem ensemble_returns_min_cost_witness :
    saProcessState sampleApportion (fun _ _ => zeroStream) [] 1 sampleReg 8 =
      renderAssign (saStatePrec sampleReg 8)
        (saRunOf (fun _ _ => zeroStream) sampleReg 8 1 [] 0).1 8 := by
  have H := ensemble_returns_min_cost sampleApportion (fun _ _ => zeroStream) [] 1 sampleReg 8 1
      (by decide) rfl
  obtain ⟨b, hb, ⟨i, hi, hib⟩, hmin, heq⟩ := H
  have h0 : i = 0 := by omega
  subst h0
  rw [heq, ← hib]

/-! ## Rejected-move revert (C9) -/

/-- C9.  In one annealing iteration: when the proposed move is rejected
(the proposed district differs, the new cost is not lower, and the
Metropolis coin fails) the iteration returns the assignment and tracked
cost exactly as they were; and in every case the iteration leaves every
precinct other than the picked one unchanged. -/
theorem sa_reject_reverts (ps : List Precinct) (dc : ℕ) (cs : List Constraint)
    (a : Assignment) (cost : ℚ) (pickV ddV : ℕ) :
    (saProposed dc ddV ≠ a (saPicked ps pickV).id →
      ¬ calculateCost dc cs ps
          (Function.update a (saPicked ps pickV).id (saProposed dc ddV)) < cost →
      saIteration ps dc cs a cost pickV ddV false = (a, cost)) ∧
    (∀ (metroV : Bool) (q : ℕ), q ≠ (saPicked ps pickV).id →
      (saIteration ps dc cs a cost pickV ddV metroV).1 q = a q) := by
  constructor
  · intro hne hni
    unfold saIteration
    simp only
    rw [if_neg hne, if_neg hni, if_neg (by simp)]
    rw [Function.update_idem, Function.update_eq_self]
  · intro metroV q hq
    unfold saIteration
    simp only
    split
    · rfl
    · split
      · exact Function.update_noteq hq _ _
      · split
        · exact Function.update_noteq hq _ _
        · rw [Function.update_idem]
          exact Function.update_noteq hq _ _

/-- The cost model never returns a negative cost on nonnegative
populations: every population-deviation term and every constraint
penalty is nonnegative. -/
theorem calculateCost_nonneg (dc : ℕ) (cs : List Constraint) (ps : List Precinct)
    (a : Assignment) (h : ∀ p ∈ ps, 0 ≤ p.stats.pop) :
    0 ≤ calculateCost dc cs ps a := by
  have htot : 0 ≤ totalPop ps := by
    apply List.sum_nonneg
    intro y hy
    simp only [List.mem_map] at hy
    obtain ⟨p, hp, rfl⟩ := hy
    exact h p hp
  unfold calculateCost
  simp only
  apply add_nonneg
  · apply List.sum_nonneg
    intro x hx
    simp only [List.mem_map] at hx
    obtain ⟨d, hd, rfl⟩ := hx
    exact div_nonneg (abs_nonneg _) (div_nonneg htot (Nat.cast_nonneg dc))
  · apply List.sum_nonneg
    intro x hx
    simp only [List.mem_map] at hx
    obtain ⟨c, hc, rfl⟩ := hx
    unfold constraintPenalty
    simp only
    exact mul_nonneg (abs_nonneg _) (by norm_num)

/-- C9 witness: a concrete rejected move (precinct 1 of a balanced
two-precinct split moved into district 2, with tracked cost −1, which
no nonnegative recomputed cost can improve, coin false) reverts to the
original assignment and cost; and an accepted variant of the same
iteration leaves unrelated id 5 untouched. -/
theorem sa_reject_reverts_witness :
    saIteration [mkPrec 1 1 1 0 0, mkPrec 2 2 1 0 0] 2 []
        (initAssign [mkPrec 1 1 1 0 0, mkPrec 2 2 1 0 0]) (-1) 0 1 false
      = (initAssign [mkPrec 1 1 1 0 0, mkPrec 2 2 1 0 0], -1) ∧
    (saIteration [mkPrec 1 1 1 0 0, mkPrec 2 2 1 0 0] 2 []
        (initAssign [mkPrec 1 1 1 0 0, mkPrec 2 2 1 0 0]) (-1) 0 1 true).1 5
      = initAssign [mkPrec 1 1 1 0 0, mkPrec 2 2 1 0 0] 5 := by
  have h0 : (0 : ℚ) ≤ calculateCost 2 [] [mkPrec 1 1 1 0 0, mkPrec 2 2 1 0 0]
      (Function.update (initAssign [mkPrec 1 1 1 0 0, mkPrec 2 2 1 0 0])
        (saPicked [mkPrec 1 1 1 0 0, mkPrec 2 2 1 0 0] 0).id (saProposed 2 1)) :=
    calculateCost_nonneg _ _ _ _ (by decide)
  exact ⟨(sa_reject_reverts [mkPrec 1 1 1 0 0, mkPrec 2 2 1 0 0] 2 []
      (initAssign [mkPrec 1 1 1 0 0, mkPrec 2 2 1 0 0]) (-1) 0 1).1 (by decide)
      (not_lt.mpr (le_trans (by norm_num) h0)),
    (sa_reject_reverts [mkPrec 1 1 1 0 0, mkPrec 2 2 1 0 0] 2 []
      (initAssign [mkPrec 1 1 1 0 0, mkPrec 2 2 1 0 0]) (-1) 0 1).2 true 5 (by decide)⟩

/-! ## Seeding (C8) -/

theorem tryPick_nil_used (ps : List Precinct) (g : ℕ → ℕ) (t : ℕ) :
    tryPick ps [] g t 100 = some (ps.getD (drawIdx g t ps.length) default, t + 1) := by
  rfl

theorem pickLoop_id_bounds (ps : List Precinct) (g : ℕ → ℕ) :
    ∀ (r i : ℕ) (used : List ℕ) (t : ℕ), ∀ c ∈ pickLoop ps g r i used t,
      i + 1 ≤ c.id ∧ c.id ≤ i + r := by
  intro r
  induction r with
  | zero => intro i used t c hc; cases hc
  | succ r ih =>
      intro i used t c hc
      rw [pickLoop] at hc
      rcases htp : tryPick ps used g t 100 with _ | ⟨p, t'⟩
      · rw [htp] at hc
        have := ih (i + 1) used (t + 100) c hc
        omega
      · rw [htp] at hc
        rcases List.mem_cons.mp hc with h' | h'
        · subst h'
          show i + 1 ≤ i + 1 ∧ i + 1 ≤ i + (r + 1)
          omega
        · have := ih (i + 1) (p.id :: used) t' c h'
          omega

theorem nearestCtr_foldl_mem (p : Precinct) :
    ∀ (cs : List Center) (m : ℚ) (j : ℕ),
      (cs.foldl
        (fun (acc : Option ℚ × ℕ) c =>
          let distSq := (p.x - c.x) * (p.x - c.x) + (p.y - c.y) * (p.y - c.y)
          match acc.1 with
          | none => (some distSq, c.id)
          | some m => if distSq < m then (some distSq, c.id) else acc)
        (some m, j)).2 ∈ j :: cs.map (fun c => c.id) := by
  intro cs
  induction cs with
  | nil => intro m j; exact List.mem_singleton_self j
  | cons c t ih =>
      intro m j
      simp only [List.foldl_cons, List.map_cons]
      by_cases hlt : (p.x - c.x) * (p.x - c.x) + (p.y - c.y) * (p.y - c.y) < m
      · rw [if_pos hlt]
        have h1 := ih ((p.x - c.x) * (p.x - c.x) + (p.y - c.y) * (p.y - c.y)) c.id
        simp only [List.mem_cons] at h1 ⊢
        tauto
      · rw [if_neg hlt]
        have h1 := ih m j
        simp only [List.mem_cons] at h1 ⊢
        tauto

theorem nearestCtr_mem (centers : List Center) (p : Precinct)
    (h : centers ≠ []) : nearestCtr centers p ∈ centers.map (fun c => c.id) := by
  rcases centers with _ | ⟨c, t⟩
  · exact absurd rfl h
  · unfold nearestCtr
    simp only [List.foldl_cons]
    exact nearestCtr_foldl_mem p t _ c.id

theorem assocSet_of_not_mem (m : List (ℕ × ℕ)) (k v : ℕ)
    (h : k ∉ m.map Prod.fst) : assocSet m k v = m ++ [(k, v)] := by
  induction m with
  | nil => rfl
  | cons hd t ih =>
      unfold assocSet
      rw [if_neg, ih]
      · rfl
      · intro he
        exact h (by simp [he])
      · intro ht
        exact h (by simp [ht])

theorem foldl_assocSet_eq_append (nf : Precinct → ℕ) :
    ∀ (ps : List Precinct) (m : List (ℕ × ℕ)),
      (ps.map (fun p => p.id)).Nodup →
      (∀ p ∈ ps, p.id ∉ m.map Prod.fst) →
      ps.foldl (fun m p => assocSet m p.id (nf p)) m
        = m ++ ps.map (fun p => (p.id, nf p)) := by
  intro ps
  induction ps with
  | nil => intro m _ _; simp
  | cons p t ih =>
      intro m hnd hdisj
      simp only [List.map_cons] at hnd
      have hnd' := List.nodup_cons.mp hnd
      simp only [List.foldl_cons, List.map_cons]
      rw [assocSet_of_not_mem m p.id (nf p) (hdisj p (List.mem_cons_self p t))]
      rw [ih (m ++ [(p.id, nf p)]) hnd'.2]
      · simp
      · intro q hq
        simp only [List.map_append, List.mem_append]
        rintro (h' | h')
        · exact hdisj q (List.mem_cons_of_mem p hq) h'
        · simp only [List.map_cons, List.map_nil, List.mem_singleton] at h'
          have hq' : q.id ∈ t.map (fun p => p.id) := List.mem_map_of_mem _ hq
          exact hnd'.1 (h' ▸ hq')

theorem assocGet_map_self (nf : Precinct → ℕ) :
    ∀ ps : List Precinct, (ps.map (fun p => p.id)).Nodup →
      ∀ q ∈ ps, assocGet (ps.map (fun p => (p.id, nf p))) q.id = some (nf q) := by
  intro ps
  induction ps with
  | nil => intro _ q hq; cases hq
  | cons p t ih =>
      intro hnd q hq
      simp only [List.map_cons] at hnd ⊢
      rcases List.mem_cons.mp hq with h' | h'
      · subst h'
        unfold assocGet
        simp [List.find?]
      · have hne : p.id ≠ q.id := by
          intro he
          have hq' : q.id ∈ t.map (fun p => p.id) := List.mem_map_of_mem _ h'
          exact (List.nodup_cons.mp hnd).1 (he ▸ hq')
        unfold assocGet
        rw [List.find?, decide_eq_false hne]
        exact ih (List.nodup_cons.mp hnd).2 q h'

/-- C8 (counterexample).  With three precincts and an adversarial
random stream, round 1 of the seeding exhausts its 100 attempts on the
already-used seed, so only two centers are chosen but their ids are 1
and 3 (the loop index, not the running center count): precinct 3 is
assigned district id 3, which is not in `[1, number of chosen centers]
= [1, 2]` — the parenthetical "ids 1..number of chosen centers" of the
claim is false. -/
theorem seeding_center_ids_cex :
    (pickSeeds seedPsX 3 seedGX).map (fun c => c.id) = [1, 3] ∧
    assocGet (seedAndGrow seedPsX 3 seedGX) 3 = some 3 := by
  have hseeds : pickSeeds seedPsX 3 seedGX = [⟨0, 0, 1⟩, ⟨10, 0, 3⟩] := by decide
  constructor
  · rw [hseeds]
    rfl
  · have h1 : nearestCtr [⟨0, 0, 1⟩, ⟨10, 0, 3⟩] (mkPrec 1 0 1 0 0) = 1 := by
      norm_num [nearestCtr, mkPrec]
    have h2 : nearestCtr [⟨0, 0, 1⟩, ⟨10, 0, 3⟩] (mkPrec 2 0 1 10 0) = 3 := by
      norm_num [nearestCtr, mkPrec]
    have h3 : nearestCtr [⟨0, 0, 1⟩, ⟨10, 0, 3⟩] (mkPrec 3 0 1 20 0) = 3 := by
      norm_num [nearestCtr, mkPrec]
    unfold seedAndGrow
    rw [hseeds]
    show assocGet
      (List.foldl (fun m p => assocSet m p.id (nearestCtr [⟨0, 0, 1⟩, ⟨10, 0, 3⟩] p))
        [] seedPsX) 3 = some 3
    simp only [seedPsX, List.foldl_cons, List.foldl_nil, h1, h2, h3]
    rfl

/-- C8 (amended).  For a non-empty precinct list, `districtCount ≥ 1`
and distinct precinct ids: at least one center is chosen, every chosen
center's id lies in `[1, districtCount]` (they are `1..number of chosen
centers` only when no seeding round exhausts its 100 attempts, see the
counterexample), the returned assignment has exactly the input
precincts as keys, and every precinct is mapped to its nearest chosen
center's id — regardless of its original district id. -/
theorem seeding_assigns_to_centers (ps : List Precinct) (dc : ℕ) (g : ℕ → ℕ)
    (_hne : ps ≠ []) (hdc : 1 ≤ dc) (hnd : (ps.map (fun p => p.id)).Nodup) :
    pickSeeds ps dc g ≠ [] ∧
    (∀ c ∈ pickSeeds ps dc g, 1 ≤ c.id ∧ c.id ≤ dc) ∧
    (seedAndGrow ps dc g).map Prod.fst = ps.map (fun p => p.id) ∧
    (∀ p ∈ ps,
      assocGet (seedAndGrow ps dc g) p.id
        = some (nearestCtr (pickSeeds ps dc g) p) ∧
      nearestCtr (pickSeeds ps dc g) p
        ∈ (pickSeeds ps dc g).map (fun c => c.id)) := by
  have hcent : pickSeeds ps dc g ≠ [] := by
    rcases dc with _ | d
    · omega
    · unfold pickSeeds
      rw [pickLoop, tryPick_nil_used]
      simp
  have hfold : seedAndGrow ps dc g
      = ps.map (fun p => (p.id, nearestCtr (pickSeeds ps dc g) p)) := by
    unfold seedAndGrow
    rw [foldl_assocSet_eq_append (nearestCtr (pickSeeds ps dc g)) ps [] hnd
      (by intro p _; simp)]
    simp
  refine ⟨hcent, ?_, ?_, ?_⟩
  · intro c hc
    have := pickLoop_id_bounds ps g dc 0 [] 0 c hc
    omega
  · rw [hfold, List.map_map]
    rfl
  · intro p hp
    refine ⟨?_, nearestCtr_mem _ p hcent⟩
    rw [hfold]
    exact assocGet_map_self (nearestCtr (pickSeeds ps dc g)) ps hnd p hp

/-- C8 witness: two distinct precincts, one district, a constant-zero
stream — the assignment's keys are the precinct ids and precinct 1 maps
to its nearest chosen center. -/
theorem seeding_assigns_to_centers_witness :
    (seedAndGrow [mkPrec 1 5 1 0 0, mkPrec 2 7 1 10 0] 1 (fun _ => 0)).map Prod.fst
      = [mkPrec 1 5 1 0 0, mkPrec 2 7 1 10 0].map (fun p => p.id) ∧
    assocGet (seedAndGrow [mkPrec 1 5 1 0 0, mkPrec 2 7 1 10 0] 1 (fun _ => 0)) 1
      = some (nearestCtr
          (pickSeeds [mkPrec 1 5 1 0 0, mkPrec 2 7 1 10 0] 1 (fun _ => 0))
          (mkPrec 1 5 1 0 0)) :=
  ⟨(seeding_assigns_to_centers [mkPrec 1 5 1 0 0, mkPrec 2 7 1 10 0] 1 (fun _ => 0)
      (by decide) (by decide) (by decide)).2.2.1,
   ((seeding_assigns_to_centers [mkPrec 1 5 1 0 0, mkPrec 2 7 1 10 0] 1 (fun _ => 0)
      (by decide) (by decide) (by decide)).2.2.2 (mkPrec 1 5 1 0 0)
      (List.mem_cons_self _ _)).1⟩

/-! ## Missing apportionment entries are skipped (C6) -/

theorem mem_groupFor (reg : Reg) (mk : ℕ → ℕ → Precinct)
    (hmk : ∀ pid did, (mk pid did).id = pid) (s : ℕ) :
    ∀ q ∈ groupFor reg mk s, reg.stateMap q.id = some s := by
  intro q hq
  unfold groupFor at hq
  rw [List.mem_filterMap] at hq
  obtain ⟨kv, _, heq⟩ := hq
  by_cases hc : reg.stateMap kv.1 = some s
  · rw [if_pos hc] at heq
    have hqe := Option.some.inj heq
    rw [← hqe, hmk]
    exact hc
  · rw [if_neg hc] at heq
    cases heq

theorem mem_keys_assocSet (k v x : ℕ) :
    ∀ m : List (ℕ × ℕ), x ∈ (assocSet m k v).map Prod.fst →
      x = k ∨ x ∈ m.map Prod.fst := by
  intro m
  induction m with
  | nil =>
      intro h
      simp only [assocSet, List.map_cons, List.map_nil, List.mem_singleton] at h
      exact Or.inl h
  | cons hd t ih =>
      obtain ⟨a, b⟩ := hd
      intro h
      unfold assocSet at h
      by_cases hak : a = k
      · rw [if_pos hak] at h
        simp only [List.map_cons, List.mem_cons] at h
        rcases h with h | h
        · exact Or.inl (h.trans hak)
        · exact Or.inr (by simp [h])
      · rw [if_neg hak] at h
        simp only [List.map_cons, List.mem_cons] at h
        rcases h with h | h
        · exact Or.inr (by simp [h])
        · rcases ih h with h' | h'
          · exact Or.inl h'
          · exact Or.inr (by simp [h'])

theorem mem_keys_foldl_assocSet (nf : Precinct → ℕ) :
    ∀ (ps : List Precinct) (m : List (ℕ × ℕ)) (x : ℕ),
      x ∈ ((ps.foldl (fun m p => assocSet m p.id (nf p)) m).map Prod.fst) →
      x ∈ m.map Prod.fst ∨ x ∈ ps.map (fun p => p.id) := by
  intro ps
  induction ps with
  | nil => intro m x h; exact Or.inl h
  | cons p t ih =>
      intro m x h
      simp only [List.foldl_cons] at h
      rcases ih (assocSet m p.id (nf p)) x h with h' | h'
      · rcases mem_keys_assocSet p.id (nf p) x m h' with h'' | h''
        · exact Or.inr (by simp [h''])
        · exact Or.inl h''
      · exact Or.inr (by simp only [List.map_cons, List.mem_cons]; exact Or.inr h')

theorem seedAndGrow_keys (ps : List Precinct) (dc : ℕ) (g : ℕ → ℕ) (x : ℕ)
    (h : x ∈ (seedAndGrow ps dc g).map Prod.fst) :
    x ∈ ps.map (fun p => p.id) := by
  unfold seedAndGrow at h
  rcases mem_keys_foldl_assocSet _ ps [] x h with h' | h'
  · cases h'
  · exact h'

theorem stateMap_of_mem_group_ids (reg : Reg) (mk : ℕ → ℕ → Precinct)
    (hmk : ∀ pid did, (mk pid did).id = pid) (s x : ℕ)
    (h : x ∈ (groupFor reg mk s).map (fun p => p.id)) :
    reg.stateMap x = some s := by
  rw [List.mem_map] at h
  obtain ⟨q, hq, hqx⟩ := h
  rw [← hqx]
  exact mem_groupFor reg mk hmk s q hq

theorem stateUpdatesAuto_state (apportion : ℕ → Option ℕ) (g : ℕ → ℕ → ℕ)
    (reg : Reg) (s' : ℕ) (u : ℕ × ℕ)
    (hu : u ∈ stateUpdatesAuto apportion g reg s') :
    apportion s' ≠ none ∧ reg.stateMap u.1 = some s' := by
  rcases happ : apportion s' with _ | dc
  · have h0 : stateUpdatesAuto apportion g reg s' = [] := by
      unfold stateUpdatesAuto
      rw [happ]
    rw [h0] at hu
    cases hu
  · have h0 : stateUpdatesAuto apportion g reg s'
        = (seedAndGrow (autoStatePrec reg s') dc (g s')).map
            (fun kv => (kv.1, s' * 100 + kv.2)) := by
      unfold stateUpdatesAuto
      rw [happ]
    rw [h0, List.mem_map] at hu
    obtain ⟨kv, hkv, hkvu⟩ := hu
    have hx : kv.1 ∈ (autoStatePrec reg s').map (fun p => p.id) := by
      apply seedAndGrow_keys _ _ (g s')
      exact List.mem_map_of_mem Prod.fst hkv
    have hsm := stateMap_of_mem_group_ids reg _ (fun pid did => rfl) s' kv.1 hx
    constructor
    · exact fun hc => Option.noConfusion hc
    · rw [← hkvu]
      exact hsm

theorem saProcessState_state (apportion : ℕ → Option ℕ)
    (streams : ℕ → ℕ → SAStream) (cs : List Constraint) (runs : ℕ) (reg : Reg)
    (s' : ℕ) (u : ℕ × ℕ) (hu : u ∈ saProcessState apportion streams cs runs reg s') :
    apportion s' ≠ none ∧ reg.stateMap u.1 = some s' := by
  rcases happ : apportion s' with _ | dc
  · have h0 : saProcessState apportion streams cs runs reg s' = [] := by
      unfold saProcessState
      rw [happ]
    rw [h0] at hu
    cases hu
  · rcases hbest : bestOfRuns runs (saRunOf streams reg s' dc cs) with _ | b
    · have h0 : saProcessState apportion streams cs runs reg s' = [] := by
        unfold saProcessState
        rw [happ]
        simp only [hbest]
      rw [h0] at hu
      cases hu
    · have h0 := saProcessState_eq_render apportion streams cs runs reg s' dc happ b hbest
      rw [h0] at hu
      unfold renderAssign at hu
      rw [List.mem_map] at hu
      obtain ⟨q, hq, hqu⟩ := hu
      have hsm := mem_groupFor reg _ (fun pid did => rfl) s' q hq
      constructor
      · exact fun hc => Option.noConfusion hc
      · rw [← hqu]
        exact hsm

theorem assocGet_assocSet_ne (k v k' : ℕ) (h : k' ≠ k) :
    ∀ m : List (ℕ × ℕ), assocGet (assocSet m k v) k' = assocGet m k' := by
  intro m
  induction m with
  | nil =>
      unfold assocSet assocGet
      have hne : ¬ (k = k') := fun he => h he.symm
      simp [List.find?, hne]
  | cons hd t ih =>
      obtain ⟨a, b⟩ := hd
      unfold assocSet
      by_cases hak : a = k
      · rw [if_pos hak]
        have hak' : ¬ (a = k') := fun he => h (he.symm.trans hak)
        unfold assocGet
        simp [List.find?, hak']
      · rw [if_neg hak]
        by_cases hak' : a = k'
        · unfold assocGet
          simp [List.find?, hak']
        · unfold assocGet at ih ⊢
          simp only [List.find?, hak', decide_eq_false hak']
          exact ih

theorem assocGet_applyUpdates (k : ℕ) :
    ∀ (us : List (ℕ × ℕ)) (m : List (ℕ × ℕ)), (∀ u ∈ us, u.1 ≠ k) →
      assocGet (applyUpdates m us) k = assocGet m k := by
  intro us
  induction us with
  | nil => intro m _; rfl
  | cons u t ih =>
      intro m h
      unfold applyUpdates
      simp only [List.foldl_cons]
      have ht : assocGet (applyUpdates (assocSet m u.1 u.2) t) k
          = assocGet (assocSet m u.1 u.2) k :=
        ih (assocSet m u.1 u.2) (fun v hv => h v (List.mem_cons_of_mem u hv))
      unfold applyUpdates at ht
      rw [ht]
      exact assocGet_assocSet_ne u.1 u.2 k
        (Ne.symm (h u (List.mem_cons_self u t))) m

/-- C6.  A region whose id has no apportionment entry is silently
skipped by both redistricting handlers: no update in the response names
any of that region's precincts, the stored district assignment of each
such precinct is unchanged, and every apportioned region still
contributes its full per-region updates (no global failure). -/
theorem missing_apportionment_skips_region (apportion : ℕ → Option ℕ)
    (g : ℕ → ℕ → ℕ) (streams : ℕ → ℕ → SAStream) (cs : List Constraint)
    (userRuns : ℕ) (isAuto : Bool) (reg : Reg) (pid s : ℕ)
    (hs : reg.stateMap pid = some s) (hnone : apportion s = none) :
    (∀ u ∈ (autoRedistrict apportion g reg).1, u.1 ≠ pid) ∧
    assocGet (autoRedistrict apportion g reg).2.districtMap pid
      = assocGet reg.districtMap pid ∧
    (∀ u ∈ (simAnnealTask apportion streams cs userRuns isAuto reg).1, u.1 ≠ pid) ∧
    assocGet (simAnnealTask apportion streams cs userRuns isAuto reg).2.districtMap pid
      = assocGet reg.districtMap pid ∧
    (∀ s' dc', apportion s' = some dc' →
      stateUpdatesAuto apportion g reg s'
        = (seedAndGrow (autoStatePrec reg s') dc' (g s')).map
            (fun kv => (kv.1, s' * 100 + kv.2))) := by
  have hauto : ∀ u ∈ (autoRedistrict apportion g reg).1, u.1 ≠ pid := by
    intro u hu heq
    have hu' : u ∈ (statesOf reg).flatMap (stateUpdatesAuto apportion g reg) := hu
    obtain ⟨s', _, humem⟩ := List.mem_flatMap.mp hu'
    obtain ⟨hne', hsm⟩ := stateUpdatesAuto_state apportion g reg s' u humem
    rw [heq, hs] at hsm
    exact hne' (Option.some.inj hsm ▸ hnone)
  have hsa : ∀ u ∈ (simAnnealTask apportion streams cs userRuns isAuto reg).1,
      u.1 ≠ pid := by
    intro u hu heq
    have hu' : u ∈ (statesOf reg).flatMap
        (saProcessState apportion streams cs (effectiveRuns cs userRuns isAuto) reg) := hu
    obtain ⟨s', _, humem⟩ := List.mem_flatMap.mp hu'
    obtain ⟨hne', hsm⟩ :=
      saProcessState_state apportion streams cs _ reg s' u humem
    rw [heq, hs] at hsm
    exact hne' (Option.some.inj hsm ▸ hnone)
  refine ⟨hauto, ?_, hsa, ?_, ?_⟩
  · exact assocGet_applyUpdates pid (autoRedistrict apportion g reg).1
      reg.districtMap hauto
  · exact assocGet_applyUpdates pid
      (simAnnealTask apportion streams cs userRuns isAuto reg).1
      reg.districtMap hsa
  · intro s' dc' h
    unfold stateUpdatesAuto
    rw [h]

/-- C6 witness: in the two-region sample registry, precinct 1 lives in
region 7, which the sample apportionment omits — both handlers leave
its stored district untouched. -/
theorem missing_apportionment_skips_region_witness :
    assocGet (autoRedistrict sampleApportion (fun _ _ => 0) sampleReg).2.districtMap 1
      = assocGet sampleReg.districtMap 1 ∧
    assocGet (simAnnealTask sampleApportion (fun _ _ => zeroStream) [] 1 false
        sampleReg).2.districtMap 1
      = assocGet sampleReg.districtMap 1 :=
  ⟨(missing_apportionment_skips_region sampleApportion (fun _ _ => 0)
      (fun _ _ => zeroStream) [] 1 false sampleReg 1 7 rfl rfl).2.1,
   (missing_apportionment_skips_region sampleApportion (fun _ _ => 0)
      (fun _ _ => zeroStream) [] 1 false sampleReg 1 7 rfl rfl).2.2.2.1⟩

/-! ## One response per message, success iff no throw (C10) -/

/-- C10.  The `try`/`catch` dispatcher posts exactly one response per
incoming message (the embedding returns precisely one): its id is the
message's id; `success = true` exactly when the dispatched handler
completed without throwing, and then the response carries data and no
error; on a throw the single response carries `success = false` and the
thrown message, and the registry state is exactly as before, so
subsequent tasks still run against intact maps; the unhandled `PONG`
kind is the throwing case, with the `Unknown message type` error. -/
theorem worker_single_response {G : Type} (geo : GeoOracle G)
    (apportion : ℕ → Option ℕ) (gAuto : ℕ → ℕ → ℕ)
    (saStreams : ℕ → ℕ → SAStream) (reg : Reg) (m : WMessage) :
    (onmessage geo apportion gAuto saStreams reg m).2.id = m.id ∧
    ((onmessage geo apportion gAuto saStreams reg m).2.success = true ↔
      ∃ rd, runTask geo apportion gAuto saStreams reg m.task = .ok rd) ∧
    ((onmessage geo apportion gAuto saStreams reg m).2.success = true →
      (onmessage geo apportion gAuto saStreams reg m).2.error = none ∧
      ∃ d, (onmessage geo apportion gAuto saStreams reg m).2.data = some d) ∧
    ((onmessage geo apportion gAuto saStreams reg m).2.success = false →
      (onmessage geo apportion gAuto saStreams reg m).1 = reg ∧
      (onmessage geo apportion gAuto saStreams reg m).2.data = none ∧
      ∃ e, runTask geo apportion gAuto saStreams reg m.task = .error e ∧
        (onmessage geo apportion gAuto saStreams reg m).2.error = some e) ∧
    runTask geo apportion gAuto saStreams reg TaskMsg.pong
      = .error ("Unknown message type: " ++ taskName TaskMsg.pong) := by
  have hpong : runTask geo apportion gAuto saStreams reg TaskMsg.pong
      = .error ("Unknown message type: " ++ taskName TaskMsg.pong) := rfl
  rcases hr : runTask geo apportion gAuto saStreams reg m.task with e | rd
  · have ho : onmessage geo apportion gAuto saStreams reg m
        = (reg, ⟨m.id, false, none, some e⟩) := by
      unfold onmessage
      rw [hr]
    rw [ho]
    refine ⟨rfl, ?_, ?_, ?_, hpong⟩
    · constructor
      · intro h
        cases h
      · rintro ⟨rd, hrd⟩
        cases hrd
    · intro h
      cases h
    · intro _
      exact ⟨rfl, rfl, e, rfl, rfl⟩
  · have ho : onmessage geo apportion gAuto saStreams reg m
        = (rd.1, ⟨m.id, true, some rd.2, none⟩) := by
      unfold onmessage
      rw [hr]
    rw [ho]
    refine ⟨rfl, ⟨fun _ => ⟨rd, rfl⟩, fun _ => rfl⟩,
      fun _ => ⟨rfl, rd.2, rfl⟩, ?_, hpong⟩
    intro h
    cases h

/-- C10 witness: on the sample registry, a `PONG` message is answered
with `success = false` via the unknown-type error while a `PING`
message is answered with its own id and `success = true`. -/
theorem worker_single_response_witness :
    (onmessage unitGeo sampleApportion (fun _ _ => 0) (fun _ _ => zeroStream)
        sampleReg ⟨"t1", TaskMsg.pong⟩).2.id = "t1" ∧
    (onmessage unitGeo sampleApportion (fun _ _ => 0) (fun _ _ => zeroStream)
        sampleReg ⟨"t2", TaskMsg.ping⟩).2.success = true ∧
    runTask unitGeo sampleApportion (fun _ _ => 0) (fun _ _ => zeroStream)
        sampleReg TaskMsg.pong
      = .error ("Unknown message type: " ++ taskName TaskMsg.pong) :=
  ⟨(worker_single_response unitGeo sampleApportion (fun _ _ => 0)
      (fun _ _ => zeroStream) sampleReg ⟨"t1", TaskMsg.pong⟩).1,
   (worker_single_response unitGeo sampleApportion (fun _ _ => 0)
      (fun _ _ => zeroStream) sampleReg ⟨"t2", TaskMsg.ping⟩).2.1.mpr
     ⟨(sampleReg, WData.pongToken), rfl⟩,
   (worker_single_response unitGeo sampleApportion (fun _ _ => 0)
      (fun _ _ => zeroStream) sampleReg ⟨"t1", TaskMsg.pong⟩).2.2.2.2⟩

end ClearLine
